import Mathlib

/-!
# Orlando DevOps observability demo: api-gateway and inventory-service

A shallow embedding of the two HTTP handlers of the repository,
`handleCreateOrder` (services/api-gateway/main.go) and `handleCheck`
(services/inventory-service/main.go), together with the parts of the Go
standard library they call and that decide their control flow
(`encoding/json`, `fmt`, `net/http`), and with the OpenTelemetry tracer,
propagator and `otelhttp` wrappers that `main` and `initTracer` install.

A handler is embedded as a function from the request and the answers of
its environment to the ordered list of effects it performs.  Bytes are
natural numbers (a byte is a number below 256), a Go string that holds
well-formed UTF-8 is a `String`.
-/

set_option autoImplicit false

/-- The bytes of a text; used to write bodies as text.  Follows Go's
`utf8.AppendRune` on each rune. -/
def encodeRune (c : Char) : List Nat :=
  let n := c.toNat
  if n < 0x80 then [n]
  else if n < 0x800 then [0xC0 + n / 0x40, 0x80 + n % 0x40]
  else if n < 0x10000 then [0xE0 + n / 0x1000, 0x80 + n / 0x40 % 0x40, 0x80 + n % 0x40]
  else [0xF0 + n / 0x40000, 0x80 + n / 0x1000 % 0x40, 0x80 + n / 0x40 % 0x40, 0x80 + n % 0x40]

/-- The bytes of a Go string given as its runes. -/
def encodeRunes : List Char → List Nat
  | [] => []
  | c :: cs => encodeRune c ++ encodeRunes cs

/-- The bytes of a string literal. -/
def utf8 (s : String) : List Nat := encodeRunes s.data

namespace json

/-! ## encoding/json: scanner.go -/

/-- The values of the scanner's parse stack. -/
inductive ParseState where
  | parseObjectKey
  | parseObjectValue
  | parseArrayValue
deriving DecidableEq

/-- The opcodes a scanner step returns. -/
inductive Op where
  | scanContinue
  | scanBeginLiteral
  | scanBeginObject
  | scanObjectKey
  | scanObjectValue
  | scanEndObject
  | scanBeginArray
  | scanArrayValue
  | scanEndArray
  | scanSkipSpace
  | scanEnd
  | scanError
deriving DecidableEq

/-- The scanner's step functions, by name. -/
inductive Step where
  | stateBeginValueOrEmpty
  | stateBeginValue
  | stateBeginStringOrEmpty
  | stateBeginString
  | stateEndValue
  | stateEndTop
  | stateInString
  | stateInStringEsc
  | stateInStringEscU
  | stateInStringEscU1
  | stateInStringEscU12
  | stateInStringEscU123
  | stateNeg
  | state1
  | state0
  | stateDot
  | stateDot0
  | stateE
  | stateESign
  | stateE0
  | stateT
  | stateTr
  | stateTru
  | stateF
  | stateFa
  | stateFal
  | stateFals
  | stateN
  | stateNu
  | stateNul
  | stateError
deriving DecidableEq

/-- The scanner: `err` holds the context of the syntax error, if any. -/
structure scanner where
  step : Step
  endTop : Bool
  parseState : List ParseState
  err : Option String
deriving DecidableEq

/-- The deepest nesting of arrays and objects the scanner accepts. -/
def maxNestingDepth : Nat := 10000

/-- The scanner after `reset`. -/
def scanner.reset : scanner :=
  { step := .stateBeginValue, endTop := false, parseState := [], err := none }

def isSpace (c : Nat) : Bool :=
  c == 0x20 || c == 0x09 || c == 0x0D || c == 0x0A

def isDigit (c : Nat) : Bool := 0x30 ≤ c && c ≤ 0x39

def isDigit19 (c : Nat) : Bool := 0x31 ≤ c && c ≤ 0x39

def isHex (c : Nat) : Bool :=
  (0x30 ≤ c && c ≤ 0x39) || (0x61 ≤ c && c ≤ 0x66) || (0x41 ≤ c && c ≤ 0x46)

/-- Records a syntax error: the scanner stays in `stateError`. -/
def scanner.error (s : scanner) (context : String) : scanner × Op :=
  ({ s with step := .stateError, err := some context }, .scanError)

/-- Moves to a new step function, returning an opcode. -/
def scanner.goto (s : scanner) (st : Step) (op : Op) : scanner × Op :=
  ({ s with step := st }, op)

def scanner.pushParseState (s : scanner) (newParseState : ParseState) (successState : Op) :
    scanner × Op :=
  let s1 := { s with parseState := newParseState :: s.parseState }
  if s1.parseState.length ≤ maxNestingDepth then (s1, successState)
  else s1.error "exceeded max depth"

def scanner.popParseState (s : scanner) : scanner :=
  match s.parseState.tail with
  | [] => { s with parseState := [], step := .stateEndTop, endTop := true }
  | rest => { s with parseState := rest, step := .stateEndValue }

def stateEndTop (s : scanner) (c : Nat) : scanner × Op :=
  if !isSpace c then ((s.error "after top-level value").1, .scanEnd)
  else (s, .scanEnd)

def stateEndValue (s : scanner) (c : Nat) : scanner × Op :=
  match s.parseState with
  | [] => stateEndTop { s with step := .stateEndTop, endTop := true } c
  | ps :: rest =>
    if isSpace c then s.goto .stateEndValue .scanSkipSpace
    else match ps with
      | .parseObjectKey =>
        if c == 0x3A then  -- ':'
          ({ s with parseState := .parseObjectValue :: rest, step := .stateBeginValue },
            .scanObjectKey)
        else s.error "after object key"
      | .parseObjectValue =>
        if c == 0x2C then  -- ','
          ({ s with parseState := .parseObjectKey :: rest, step := .stateBeginString },
            .scanObjectValue)
        else if c == 0x7D then (s.popParseState, .scanEndObject)
        else s.error "after object key:value pair"
      | .parseArrayValue =>
        if c == 0x2C then s.goto .stateBeginValue .scanArrayValue
        else if c == 0x5D then (s.popParseState, .scanEndArray)
        else s.error "after array element"

def stateBeginValue (s : scanner) (c : Nat) : scanner × Op :=
  if isSpace c then (s, .scanSkipSpace)
  else if c == 0x7B then  -- opening brace
    { s with step := .stateBeginStringOrEmpty }.pushParseState .parseObjectKey .scanBeginObject
  else if c == 0x5B then  -- '['
    { s with step := .stateBeginValueOrEmpty }.pushParseState .parseArrayValue .scanBeginArray
  else if c == 0x22 then s.goto .stateInString .scanBeginLiteral
  else if c == 0x2D then s.goto .stateNeg .scanBeginLiteral
  else if c == 0x30 then s.goto .state0 .scanBeginLiteral
  else if c == 0x74 then s.goto .stateT .scanBeginLiteral
  else if c == 0x66 then s.goto .stateF .scanBeginLiteral
  else if c == 0x6E then s.goto .stateN .scanBeginLiteral
  else if isDigit19 c then s.goto .state1 .scanBeginLiteral
  else s.error "looking for beginning of value"

def stateBeginValueOrEmpty (s : scanner) (c : Nat) : scanner × Op :=
  if isSpace c then (s, .scanSkipSpace)
  else if c == 0x5D then stateEndValue s c
  else stateBeginValue s c

def stateBeginString (s : scanner) (c : Nat) : scanner × Op :=
  if isSpace c then (s, .scanSkipSpace)
  else if c == 0x22 then s.goto .stateInString .scanBeginLiteral
  else s.error "looking for beginning of object key string"

def stateBeginStringOrEmpty (s : scanner) (c : Nat) : scanner × Op :=
  if isSpace c then (s, .scanSkipSpace)
  else if c == 0x7D then
    stateEndValue { s with parseState := .parseObjectValue :: s.parseState.tail } c
  else stateBeginString s c

def stateInString (s : scanner) (c : Nat) : scanner × Op :=
  if c == 0x22 then s.goto .stateEndValue .scanContinue
  else if c == 0x5C then s.goto .stateInStringEsc .scanContinue
  else if c < 0x20 then s.error "in string literal"
  else (s, .scanContinue)

def stateInStringEsc (s : scanner) (c : Nat) : scanner × Op :=
  if c == 0x62 || c == 0x66 || c == 0x6E || c == 0x72 || c == 0x74 || c == 0x5C
      || c == 0x2F || c == 0x22 then
    s.goto .stateInString .scanContinue
  else if c == 0x75 then s.goto .stateInStringEscU .scanContinue
  else s.error "in string escape code"

/-- The four steps `stateInStringEscU` .. `stateInStringEscU123`. -/
def stateInStringEscHex (next : Step) (s : scanner) (c : Nat) : scanner × Op :=
  if isHex c then s.goto next .scanContinue
  else s.error "in \\u hexadecimal character escape"

def state0 (s : scanner) (c : Nat) : scanner × Op :=
  if c == 0x2E then s.goto .stateDot .scanContinue
  else if c == 0x65 || c == 0x45 then s.goto .stateE .scanContinue
  else stateEndValue s c

def state1 (s : scanner) (c : Nat) : scanner × Op :=
  if isDigit c then s.goto .state1 .scanContinue
  else state0 s c

def stateNeg (s : scanner) (c : Nat) : scanner × Op :=
  if c == 0x30 then s.goto .state0 .scanContinue
  else if isDigit19 c then s.goto .state1 .scanContinue
  else s.error "in numeric literal"

def stateDot (s : scanner) (c : Nat) : scanner × Op :=
  if isDigit c then s.goto .stateDot0 .scanContinue
  else s.error "after decimal point in numeric literal"

def stateDot0 (s : scanner) (c : Nat) : scanner × Op :=
  if isDigit c then (s, .scanContinue)
  else if c == 0x65 || c == 0x45 then s.goto .stateE .scanContinue
  else stateEndValue s c

def stateESign (s : scanner) (c : Nat) : scanner × Op :=
  if isDigit c then s.goto .stateE0 .scanContinue
  else s.error "in exponent of numeric literal"

def stateE (s : scanner) (c : Nat) : scanner × Op :=
  if c == 0x2B || c == 0x2D then s.goto .stateESign .scanContinue
  else stateESign s c

def stateE0 (s : scanner) (c : Nat) : scanner × Op :=
  if isDigit c then (s, .scanContinue)
  else stateEndValue s c

/-- The steps inside `true`, `false` and `null`: one expected letter each. -/
def stateLetter (expect : Nat) (next : Step) (context : String) (s : scanner) (c : Nat) :
    scanner × Op :=
  if c == expect then s.goto next .scanContinue
  else s.error context

/-- One call `s.step(s, c)`. -/
def scanner.stepFn (s : scanner) (c : Nat) : scanner × Op :=
  match s.step with
  | .stateBeginValueOrEmpty => stateBeginValueOrEmpty s c
  | .stateBeginValue => stateBeginValue s c
  | .stateBeginStringOrEmpty => stateBeginStringOrEmpty s c
  | .stateBeginString => stateBeginString s c
  | .stateEndValue => stateEndValue s c
  | .stateEndTop => stateEndTop s c
  | .stateInString => stateInString s c
  | .stateInStringEsc => stateInStringEsc s c
  | .stateInStringEscU => stateInStringEscHex .stateInStringEscU1 s c
  | .stateInStringEscU1 => stateInStringEscHex .stateInStringEscU12 s c
  | .stateInStringEscU12 => stateInStringEscHex .stateInStringEscU123 s c
  | .stateInStringEscU123 => stateInStringEscHex .stateInString s c
  | .stateNeg => stateNeg s c
  | .state1 => state1 s c
  | .state0 => state0 s c
  | .stateDot => stateDot s c
  | .stateDot0 => stateDot0 s c
  | .stateE => stateE s c
  | .stateESign => stateESign s c
  | .stateE0 => stateE0 s c
  | .stateT => stateLetter 0x72 .stateTr "in literal true (expecting 'r')" s c
  | .stateTr => stateLetter 0x75 .stateTru "in literal true (expecting 'u')" s c
  | .stateTru => stateLetter 0x65 .stateEndValue "in literal true (expecting 'e')" s c
  | .stateF => stateLetter 0x61 .stateFa "in literal false (expecting 'a')" s c
  | .stateFa => stateLetter 0x6C .stateFal "in literal false (expecting 'l')" s c
  | .stateFal => stateLetter 0x73 .stateFals "in literal false (expecting 's')" s c
  | .stateFals => stateLetter 0x65 .stateEndValue "in literal false (expecting 'e')" s c
  | .stateN => stateLetter 0x75 .stateNu "in literal null (expecting 'u')" s c
  | .stateNu => stateLetter 0x6C .stateNul "in literal null (expecting 'l')" s c
  | .stateNul => stateLetter 0x6C .stateEndValue "in literal null (expecting 'l')" s c
  | .stateError => (s, .scanError)

/-- The scanner's `eof`: the opcode, and the scanner after it. -/
def scanner.eof (s : scanner) : scanner × Op :=
  if s.err.isSome then (s, .scanError)
  else if s.endTop then (s, .scanEnd)
  else
    let s1 := (s.stepFn 0x20).1
    if s1.endTop then (s1, .scanEnd)
    else if s1.err.isNone then ({ s1 with err := some "unexpected end of JSON input" }, .scanError)
    else (s1, .scanError)

/-- The loop of `checkValid`: steps through the data, stopping at the first
`scanError`. -/
def checkValidLoop (s : scanner) : List Nat → scanner × Bool
  | [] => (s, true)
  | c :: cs =>
    let r := s.stepFn c
    if r.2 = .scanError then (r.1, false) else checkValidLoop r.1 cs

/-- The function `checkValid(data, scan)`: `none` is Go's `nil`, otherwise the
context of the syntax error. -/
def checkValid (data : List Nat) : Option String :=
  let r := checkValidLoop scanner.reset data
  if r.2 = false then some (r.1.err.getD "")
  else
    let e := r.1.eof
    if e.2 = .scanError then some (e.1.err.getD "") else none

/-- The function `json.Valid`: whether data is a valid JSON encoding. -/
def Valid (data : List Nat) : Bool := (checkValid data).isNone

/-! ## encoding/json: decode.go -/

/-- A JSON value as the decoder reads it.  A number keeps its literal text
(Go converts it with `strconv.ParseFloat` when it is stored); an object keeps
all its members in the order read, repeated keys included (Go stores them
into a map one after the other). -/
inductive Value where
  | null
  | bool (b : Bool)
  | number (lit : List Nat)
  | string (s : String)
  | array (items : List Value)
  | object (members : List (String × Value))

/-- The Unicode replacement character, Go's `utf8.RuneError`. -/
def runeError : Char := Char.ofNat 0xFFFD

/-- The value of a hexadecimal digit. -/
def hexVal (c : Nat) : Nat :=
  if 0x30 ≤ c && c ≤ 0x39 then c - 0x30
  else if 0x61 ≤ c && c ≤ 0x66 then c - 0x61 + 10
  else if 0x41 ≤ c && c ≤ 0x46 then c - 0x41 + 10
  else 0

/-- The number `getu4` reads from the four hexadecimal digits after `\u`. -/
def getu4 (h1 h2 h3 h4 : Nat) : Nat :=
  hexVal h1 * 0x1000 + hexVal h2 * 0x100 + hexVal h3 * 0x10 + hexVal h4

/-- Go's `utf16.IsSurrogate`. -/
def isSurrogate (r : Nat) : Bool := 0xD800 ≤ r && r < 0xE000

/-- Go's `utf16.DecodeRune`: the rune of a surrogate pair, or the replacement
character. -/
def utf16DecodeRune (r1 r2 : Nat) : Char :=
  if 0xD800 ≤ r1 && r1 < 0xDC00 && 0xDC00 ≤ r2 && r2 < 0xE000 then
    Char.ofNat ((r1 - 0xD800) * 0x400 + (r2 - 0xDC00) + 0x10000)
  else runeError

/-- The character of a one-letter escape. -/
def escapeChar (e : Nat) : Char :=
  if e == 0x62 then Char.ofNat 0x08
  else if e == 0x66 then Char.ofNat 0x0C
  else if e == 0x6E then Char.ofNat 0x0A
  else if e == 0x72 then Char.ofNat 0x0D
  else if e == 0x74 then Char.ofNat 0x09
  else Char.ofNat e

/-- The size `utf8.DecodeRune` expects after the leading byte `c` (0 for a
byte that starts no rune). -/
def runeSize (c : Nat) : Nat :=
  if 0xC2 ≤ c && c ≤ 0xDF then 2
  else if 0xE0 ≤ c && c ≤ 0xEF then 3
  else if 0xF0 ≤ c && c ≤ 0xF4 then 4
  else 0

/-- The lowest second byte `utf8.DecodeRune` accepts after the leading byte. -/
def acceptLo (c : Nat) : Nat :=
  if c == 0xE0 then 0xA0 else if c == 0xF0 then 0x90 else 0x80

/-- The highest second byte `utf8.DecodeRune` accepts after the leading byte. -/
def acceptHi (c : Nat) : Nat :=
  if c == 0xED then 0x9F else if c == 0xF4 then 0x8F else 0xBF

/-- Whether `b` is a continuation byte. -/
def isCont (b : Nat) : Bool := 0x80 ≤ b && b ≤ 0xBF

/-- Go's `utf8.DecodeRune`: the first rune of the bytes and its size in
bytes; bytes that start no well-formed rune give the replacement character
and size 1. -/
def decodeRune (p : List Nat) : Char × Nat :=
  match p with
  | [] => (runeError, 0)
  | c :: rest =>
    if c < 0x80 then (Char.ofNat c, 1)
    else
      match rest with
      | [] => (runeError, 1)
      | b1 :: rest1 =>
        if runeSize c < 2 || b1 < acceptLo c || acceptHi c < b1 then (runeError, 1)
        else if runeSize c == 2 then (Char.ofNat (c % 0x20 * 0x40 + b1 % 0x40), 2)
        else
          match rest1 with
          | [] => (runeError, 1)
          | b2 :: rest2 =>
            if !isCont b2 then (runeError, 1)
            else if runeSize c == 3 then
              (Char.ofNat (c % 0x10 * 0x1000 + b1 % 0x40 * 0x40 + b2 % 0x40), 3)
            else
              match rest2 with
              | [] => (runeError, 1)
              | b3 :: _ =>
                if !isCont b3 then (runeError, 1)
                else
                  (Char.ofNat (c % 0x08 * 0x40000 + b1 % 0x40 * 0x1000 + b2 % 0x40 * 0x40
                    + b3 % 0x40), 4)

/-- The rune a `\u` escape gives, and the bytes it takes: `p` starts at the
backslash.  A surrogate followed by the escape of its other half gives the
rune of the pair and takes both; a surrogate alone gives the replacement
character. -/
def unquoteU (p : List Nat) : Char × Nat :=
  match p with
  | _ :: _ :: h1 :: h2 :: h3 :: h4 :: rest =>
    let rr := getu4 h1 h2 h3 h4
    if isSurrogate rr then
      match rest with
      | b :: u :: l1 :: l2 :: l3 :: l4 :: _ =>
        if b == 0x5C && u == 0x75 && isHex l1 && isHex l2 && isHex l3 && isHex l4
            && utf16DecodeRune rr (getu4 l1 l2 l3 l4) != runeError then
          (utf16DecodeRune rr (getu4 l1 l2 l3 l4), 12)
        else (runeError, 6)
      | _ => (runeError, 6)
    else (Char.ofNat rr, 6)
  | _ => (runeError, p.length)

/-- One round of the loop of `unquoteBytes`: the rune written and the bytes
read, from the bytes left. -/
def unquoteStep (p : List Nat) : Char × Nat :=
  match p with
  | [] => (runeError, 0)
  | c :: rest =>
    if c == 0x5C then
      match rest with
      | [] => (runeError, 1)
      | e :: _ => if e == 0x75 then unquoteU p else (escapeChar e, 2)
    else if c < 0x80 then (Char.ofNat c, 1)
    else decodeRune p

/-- The loop of `unquoteBytes` on the bytes between the quotes, giving the
runes of the Go string: escapes are replaced, and bytes that are not
well-formed UTF-8 become the replacement character one byte at a time.
`skip` counts the bytes the last round read beyond its first. -/
def unquoteRunes : Nat → List Nat → List Char
  | _, [] => []
  | skip + 1, _ :: rest => unquoteRunes skip rest
  | 0, c :: rest => (unquoteStep (c :: rest)).1 :: unquoteRunes ((unquoteStep (c :: rest)).2 - 1) rest

/-- The function `unquote` on a string literal, quotes included. -/
def unquote (lit : List Nat) : String :=
  String.mk (unquoteRunes 0 (lit.tail.dropLast))

/-- The value of a literal, from its bytes: `null`, `true`, `false`, a string
or a number, told apart by the first byte as `literalInterface` does. -/
def literalValue (lit : List Nat) : Value :=
  match lit with
  | [] => .null
  | c :: _ =>
    if c == 0x6E then .null
    else if c == 0x74 then .bool true
    else if c == 0x66 then .bool false
    else if c == 0x22 then .string (unquote lit)
    else .number lit

/-- An array or object being read. -/
inductive Frame where
  | array (items : List Value)
  | object (members : List (String × Value)) (key : Option String)

/-- The state of the decoder between two scanner opcodes: the bytes of the
literal being read (last byte first), the arrays and objects that are open
(innermost first), and the last value completed. -/
structure decodeState where
  lit : Option (List Nat)
  stack : List Frame
  value : Option Value

/-- The decoder before the first byte. -/
def decodeState.init : decodeState := { lit := none, stack := [], value := none }

/-- Closes the literal being read, if any. -/
def decodeState.endLiteral (d : decodeState) : decodeState :=
  match d.lit with
  | none => d
  | some bs => { d with lit := none, value := some (literalValue bs.reverse) }

/-- The text of an object key. -/
def keyOf : Option Value → String
  | some (.string s) => s
  | _ => ""

/-- Adds the completed value, if any, to the innermost open array or object. -/
def decodeState.store (d : decodeState) : decodeState :=
  match d.stack, d.value with
  | .array items :: rest, some v => { d with stack := .array (items ++ [v]) :: rest, value := none }
  | .object ms (some k) :: rest, some v =>
    { d with stack := .object (ms ++ [(k, v)]) none :: rest, value := none }
  | _, _ => d

/-- Closes the innermost open array or object: it becomes the completed
value. -/
def decodeState.close (d : decodeState) : decodeState :=
  match d.store.stack with
  | .array items :: rest => { d with stack := rest, value := some (.array items) }
  | .object ms _ :: rest => { d with stack := rest, value := some (.object ms) }
  | [] => d

/-- What the decoder does on the opcode the scanner returned for byte `c`. -/
def decodeState.step (d : decodeState) (op : Op) (c : Nat) : decodeState :=
  match op with
  | .scanBeginLiteral => { d with lit := some [c] }
  | .scanContinue =>
    match d.lit with
    | some bs => { d with lit := some (c :: bs) }
    | none => d
  | .scanBeginObject => { d.endLiteral with stack := .object [] none :: d.stack, value := none }
  | .scanBeginArray => { d.endLiteral with stack := .array [] :: d.stack, value := none }
  | .scanObjectKey =>
    let d1 := d.endLiteral
    match d1.stack with
    | .object ms _ :: rest => { d1 with stack := .object ms (some (keyOf d1.value)) :: rest,
                                        value := none }
    | _ => d1
  | .scanObjectValue => d.endLiteral.store
  | .scanArrayValue => d.endLiteral.store
  | .scanEndObject => d.endLiteral.close
  | .scanEndArray => d.endLiteral.close
  | .scanSkipSpace => d.endLiteral
  | .scanEnd => d.endLiteral
  | .scanError => d

/-- Runs scanner and decoder over the data. -/
def decodeLoop (s : scanner) (d : decodeState) : List Nat → scanner × decodeState
  | [] => (s, d)
  | c :: cs =>
    let r := s.stepFn c
    decodeLoop r.1 (d.step r.2 c) cs

/-- The value the data holds: the decoder run over data that `checkValid`
accepted, and closed as `eof` closes the scanner. -/
def decodeValue (data : List Nat) : Value :=
  let r := decodeLoop scanner.reset decodeState.init data
  (r.2.endLiteral.value).getD .null

/-! ### Numbers: strconv.ParseFloat -/

/-- The digits at the start of the text, as a number, and their count. -/
def readDigits (acc n : Nat) : List Nat → Nat × Nat × List Nat
  | [] => (acc, n, [])
  | c :: cs => if isDigit c then readDigits (acc * 10 + (c - 0x30)) (n + 1) cs else (acc, n, c :: cs)

/-- The exponent digits as `readFloat` adds them up: past 10000 it stops
adding. -/
def readExponent (e : Nat) : List Nat → Nat
  | [] => e
  | c :: cs =>
    if isDigit c then readExponent (if e < 10000 then e * 10 + (c - 0x30) else e) cs
    else e

/-- The smallest number that rounds to infinity as a float64: half a unit in
the last place above the largest float64. -/
def float64Overflow : Nat := (2 ^ 54 - 1) * 2 ^ 970

/-- Whether `strconv.ParseFloat(lit, 64)` fails with a range error on the
number literal: the number is `m * 10 ^ ePos / 10 ^ (frac + eNeg)`. -/
def rangeError (lit : List Nat) : Bool :=
  let body := match lit with
    | c :: cs => if c == 0x2D then cs else c :: cs
    | [] => []
  let (m1, _, r1) := readDigits 0 0 body
  let (m, frac, r2) := match r1 with
    | c :: cs => if c == 0x2E then readDigits m1 0 cs else (m1, 0, c :: cs)
    | [] => (m1, 0, [])
  let (ePos, eNeg) := match r2 with
    | c :: s :: cs =>
      if c == 0x65 || c == 0x45 then
        if s == 0x2D then (0, readExponent 0 cs)
        else if s == 0x2B then (readExponent 0 cs, 0)
        else (readExponent 0 (s :: cs), 0)
      else (0, 0)
    | _ => (0, 0)
  decide (float64Overflow * 10 ^ (frac + eNeg) ≤ m * 10 ^ ePos)

mutual
/-- Whether converting the value for an `interface{}` saves an error: some
number in it is out of the float64 range. -/
def Value.hasRangeError : Value → Bool
  | .number lit => rangeError lit
  | .array items => hasRangeErrorList items
  | .object ms => hasRangeErrorMembers ms
  | _ => false
def hasRangeErrorList : List Value → Bool
  | [] => false
  | v :: vs => v.hasRangeError || hasRangeErrorList vs
def hasRangeErrorMembers : List (String × Value) → Bool
  | [] => false
  | (_, v) :: ms => v.hasRangeError || hasRangeErrorMembers ms
end

end json

namespace json

/-- The error `Unmarshal` or `Decode` returns. -/
inductive Error where
  | SyntaxError (msg : String)
  | UnmarshalTypeError (value : String)
  | EOF
  | ErrUnexpectedEOF
  | readError (msg : String)
deriving DecidableEq

/-- A Go `map[string]interface{}`: the members in the order stored; a key
stored again overrides the earlier one. -/
abbrev Map := List (String × Value)

/-- The member stored last under the key, if any. -/
def Map.find (m : Map) (key : String) : Option Value :=
  match m with
  | [] => none
  | (k, v) :: rest =>
    match Map.find rest key with
    | some w => some w
    | none => if k = key then some v else none

/-- The Go expression `m[key]`: `none` is the nil interface, which a missing
key and a member stored as `null` both give. -/
def Map.index (m : Map) (key : String) : Option Value :=
  match m.find key with
  | some .null => none
  | r => r

/-- The call `json.Unmarshal(data, &order)` for `var order
map[string]interface{}`: the error, or the map stored.  The data must pass
`checkValid`; an object is stored member by member, `null` leaves the map
nil, and an array, string, number or boolean is a type error.  A number
that does not fit a float64 is a type error too. -/
def Unmarshal (data : List Nat) : Except Error Map :=
  match checkValid data with
  | some msg => .error (.SyntaxError msg)
  | none =>
    match decodeValue data with
    | .object ms =>
      if hasRangeErrorMembers ms then .error (.UnmarshalTypeError "number") else .ok ms
    | .null => .ok []
    | .array _ => .error (.UnmarshalTypeError "array")
    | .string _ => .error (.UnmarshalTypeError "string")
    | .number _ => .error (.UnmarshalTypeError "number")
    | .bool _ => .error (.UnmarshalTypeError "bool")

end json

/-! ## fmt: the verb %v on a decoded value -/

namespace fmt

/-- Whether the first text comes before the second in Go's string order. -/
def less : List Char → List Char → Bool
  | [], [] => false
  | [], _ :: _ => true
  | _ :: _, [] => false
  | a :: as, b :: bs => a.toNat < b.toNat || (a.toNat == b.toNat && less as bs)

/-- Puts a key and its text into a list sorted by key, in place of an equal
key. -/
def insertSorted (k : String) (v : String) : List (String × String) → List (String × String)
  | [] => [(k, v)]
  | (k1, v1) :: rest =>
    if k = k1 then (k, v) :: rest
    else if less k.data k1.data then (k, v) :: (k1, v1) :: rest
    else (k1, v1) :: insertSorted k v rest

/-- The members of a map as `fmt` prints them: sorted by key, each key
once with the value stored last. -/
def sortMembers (ms : List (String × String)) : List (String × String) :=
  ms.foldl (fun acc kv => insertSorted kv.1 kv.2 acc) []

/-- Joins texts with single spaces. -/
def joinSpace : List String → String
  | [] => ""
  | [s] => s
  | s :: rest => s ++ " " ++ joinSpace rest

mutual
/-- The text `fmt.Sprintf("%v", x)` gives for a value that `encoding/json`
decoded into an `interface{}`.  `formatFloat` is the text of the float64 a
number literal is converted to. -/
def sprintValue (formatFloat : List Nat → String) : json.Value → String
  | .null => "<nil>"
  | .bool b => if b then "true" else "false"
  | .number lit => formatFloat lit
  | .string s => s
  | .array items => "[" ++ joinSpace (sprintList formatFloat items) ++ "]"
  | .object ms =>
    "map[" ++ joinSpace ((sortMembers (sprintMembers formatFloat ms)).map
      (fun kv => kv.1 ++ ":" ++ kv.2)) ++ "]"
def sprintList (formatFloat : List Nat → String) : List json.Value → List String
  | [] => []
  | v :: vs => sprintValue formatFloat v :: sprintList formatFloat vs
def sprintMembers (formatFloat : List Nat → String) :
    List (String × json.Value) → List (String × String)
  | [] => []
  | (k, v) :: ms => (k, sprintValue formatFloat v) :: sprintMembers formatFloat ms
end

/-- The text `fmt.Sprintf("%v", x)` gives for an `interface{}` that may be nil. -/
def Sprintv (formatFloat : List Nat → String) : Option json.Value → String
  | none => "<nil>"
  | some v => sprintValue formatFloat v

end fmt

/-! ## go.opentelemetry.io/otel/trace: span contexts -/

namespace trace

/-- A span context: trace and span identifier (the 16 and 8 bytes read as
one big-endian number), the sampled flag, the trace state and whether it
came from another process. -/
structure SpanContext where
  traceID : Nat
  spanID : Nat
  sampled : Bool
  traceState : String
  remote : Bool
deriving DecidableEq

/-- The zero span context, which a context without a span gives. -/
def SpanContext.empty : SpanContext :=
  { traceID := 0, spanID := 0, sampled := false, traceState := "", remote := false }

/-- The method `IsValid`: both identifiers are non-zero. -/
def SpanContext.IsValid (sc : SpanContext) : Bool := sc.traceID != 0 && sc.spanID != 0

/-- A hexadecimal digit as a lower-case character. -/
def hexDigit (n : Nat) : Char :=
  if n < 10 then Char.ofNat (0x30 + n) else Char.ofNat (0x61 + (n - 10))

/-- The last `width` hexadecimal digits of a number, first digit first: Go's
`hex.EncodeToString` of the bytes. -/
def hexString : Nat → Nat → List Char
  | 0, _ => []
  | width + 1, n => hexString width (n / 16) ++ [hexDigit (n % 16)]

/-- The method `TraceID.String`. -/
def TraceIDString (sc : SpanContext) : String := String.mk (hexString 32 sc.traceID)

end trace

/-- A `context.Context`, as far as the handlers use it: the span context of
the current span and the baggage. -/
structure Context where
  span : trace.SpanContext
  baggage : String
deriving DecidableEq

/-! ## net/http -/

namespace http

/-- A header map; the keys are in canonical form. -/
abbrev Header := List (String × String)

/-- Whether a byte may stand in a header name. -/
def validHeaderFieldByte (c : Char) : Bool :=
  c.isAlphanum || "!#$%&*+-.^_|~".data.contains c || c.toNat == 0x27 || c.toNat == 0x60

/-- The loop of `CanonicalMIMEHeaderKey`: upper case at the start and after
a hyphen, lower case elsewhere. -/
def canonicalLoop (upper : Bool) : List Char → List Char
  | [] => []
  | c :: cs => (if upper then c.toUpper else c.toLower) :: canonicalLoop (c == Char.ofNat 0x2D) cs

/-- The function `CanonicalMIMEHeaderKey`. -/
def CanonicalHeaderKey (s : String) : String :=
  if s.data.all validHeaderFieldByte then String.mk (canonicalLoop true s.data) else s

/-- The method `Header.Get`: the first value stored under the key. -/
def Header.Get (h : Header) (key : String) : String :=
  match h.find? (fun kv => kv.1 == CanonicalHeaderKey key) with
  | some kv => kv.2
  | none => ""

/-- The method `Header.Set`: replaces what is stored under the key. -/
def Header.Set (h : Header) (key value : String) : Header :=
  h.filter (fun kv => kv.1 != CanonicalHeaderKey key) ++ [(CanonicalHeaderKey key, value)]

/-- A request: one a server hands to a handler, or one a client sends.
`BodyErr` is the error reading the body ends with, `none` for a body that
ends with `io.EOF`. -/
structure Request where
  ctx : Context
  Method : String
  URL : String
  Header : Header
  Body : List Nat
  BodyErr : Option String
deriving DecidableEq

/-- A response a client receives.  `BodyErr` is the error reading the body
ends with, if any. -/
structure Response where
  StatusCode : Nat
  Header : Header
  Body : List Nat
  BodyErr : Option String
deriving DecidableEq

/-- The function `redirectBehavior` of the client, for a request whose body
can be sent again (`bytes.NewReader` gives the request a `GetBody`): the
method of the next request, whether the client redirects, and whether the
next request carries the body. -/
def redirectBehavior (reqMethod : String) (statusCode : Nat) : String × Bool × Bool :=
  if statusCode = 301 ∨ statusCode = 302 ∨ statusCode = 303 then
    (if reqMethod ≠ "GET" ∧ reqMethod ≠ "HEAD" then "GET" else reqMethod, true, false)
  else if statusCode = 307 ∨ statusCode = 308 then (reqMethod, true, true)
  else ("", false, false)

/-- Whether `checkWriteHeaderCode` lets a status code pass: `WriteHeader`
panics on a code below 100 or above 999. -/
def checkWriteHeaderCode (code : Nat) : Bool := 100 ≤ code && code ≤ 999

/-- The function `bodyAllowedForStatus`. -/
def bodyAllowedForStatus (status : Nat) : Bool :=
  !(100 ≤ status && status ≤ 199) && status != 204 && status != 304

/-- The request a server receives for a request a client sent: what is sent
arrives, in a fresh context. -/
def received (r : Request) : Request :=
  { r with ctx := { span := trace.SpanContext.empty, baggage := "" } }

def StatusOK : Nat := 200
def StatusBadRequest : Nat := 400
def StatusInternalServerError : Nat := 500
def StatusBadGateway : Nat := 502
def MethodPost : String := "POST"

end http

/-! ## Effects of a handler -/

/-- A value of a log line. -/
inductive LogValue where
  | str (s : String)
  | bytes (data : List Nat)
  | int (n : Nat)
  | map (m : json.Map)
  | err (e : String)
  | jsonErr (e : json.Error)

/-- The value of a span attribute. -/
inductive AttrValue where
  | String (s : String)
  | Int (n : Nat)
  | Bool (b : Bool)
deriving DecidableEq

/-- The level of a log line. -/
inductive Level where
  | Info
  | Error
deriving DecidableEq

/-- What a handler does, one step at a time: the calls on the logger, the
span, the HTTP client, the clock and the response writer. -/
inductive Event where
  | log (level : Level) (msg : String) (args : List (String × LogValue))
  | SetAttributes (kv : List (String × AttrValue))
  | Do (req : http.Request)
  | Sleep (nanoseconds : Nat)
  | HeaderSet (key value : String)
  | WriteHeader (statusCode : Nat)
  | Write (data : List Nat)
  | CloseRequestBody
  | CloseResponseBody

namespace http

/-- The function `http.Error`: plain-text content type, the status code, and
the message followed by a newline (`fmt.Fprintln`). -/
def Error (error : String) (code : Nat) : List Event :=
  [ .HeaderSet "Content-Type" "text/plain; charset=utf-8",
    .HeaderSet "X-Content-Type-Options" "nosniff",
    .WriteHeader code,
    .Write (utf8 error ++ [0x0A]) ]

/-- What the caller of a handler receives, as the response writer of the
server sends it: the status code and headers of the response, its body, the
informational (1xx) codes sent before it, and whether the handler panicked,
in which case the server sends no response and closes the connection. -/
structure Recorded where
  wroteHeader : Bool
  Code : Nat
  HeaderMap : Header
  sent : Header
  Body : List Nat
  informational : List Nat
  panicked : Bool
deriving DecidableEq

/-- The response writer before the handler runs. -/
def Recorded.init : Recorded :=
  { wroteHeader := false, Code := StatusOK, HeaderMap := [], sent := [], Body := [],
    informational := [], panicked := false }

/-- The method `WriteHeader` of the server's response writer: a call after
the header is written does nothing; a code outside 100..999 panics; a 1xx
code other than 101 is sent as an informational response and leaves the
header unwritten; another code fixes status and headers. -/
def Recorded.WriteHeader (r : Recorded) (code : Nat) : Recorded :=
  if r.wroteHeader then r
  else if !checkWriteHeaderCode code then { r with panicked := true }
  else if 100 ≤ code && code ≤ 199 && code != 101 then
    { r with informational := r.informational ++ [code] }
  else { r with wroteHeader := true, Code := code, sent := r.HeaderMap }

/-- The method `Write` of the server's response writer: it implies
`WriteHeader(200)` when no header is written yet, and writes nothing for a
status that allows no body. -/
def Recorded.Write (r : Recorded) (data : List Nat) : Recorded :=
  if bodyAllowedForStatus (if r.wroteHeader then r else r.WriteHeader StatusOK).Code then
    { (if r.wroteHeader then r else r.WriteHeader StatusOK) with
      Body := (if r.wroteHeader then r else r.WriteHeader StatusOK).Body ++ data }
  else (if r.wroteHeader then r else r.WriteHeader StatusOK)

/-- The effect of one call on the response writer; after a panic nothing
reaches the caller. -/
def Recorded.step (r : Recorded) (e : Event) : Recorded :=
  if r.panicked then r
  else
    match e with
    | .HeaderSet k v => { r with HeaderMap := r.HeaderMap.Set k v }
    | .WriteHeader code => r.WriteHeader code
    | .Write data => r.Write data
    | _ => r

/-- The response a run of a handler gives its caller. -/
def respond (events : List Event) : Recorded := events.foldl Recorded.step Recorded.init

end http

/-- The requests a run sent through the HTTP client, in order. -/
def sentRequests : List Event → List http.Request
  | [] => []
  | .Do req :: rest => req :: sentRequests rest
  | _ :: rest => sentRequests rest

/-- Whether an event is a log line. -/
def Event.isLog : Event → Bool
  | .log _ _ _ => true
  | _ => false

/-! ## go.opentelemetry.io/otel/propagation: TraceContext and Baggage -/

namespace propagation

/-- The value of a lower-case hexadecimal digit. -/
def lowerHexVal (c : Char) : Option Nat :=
  if 0x30 ≤ c.toNat && c.toNat ≤ 0x39 then some (c.toNat - 0x30)
  else if 0x61 ≤ c.toNat && c.toNat ≤ 0x66 then some (c.toNat - 0x61 + 10)
  else none

/-- The number a text of lower-case hexadecimal digits stands for, after
the digits `acc` read so far. -/
def parseHex (acc : Nat) : List Char → Option Nat
  | [] => some acc
  | c :: cs =>
    match lowerHexVal c with
    | some d => parseHex (acc * 16 + d) cs
    | none => none

/-- Go's `strings.Cut(h, "-")`: the text before the first hyphen and the
text after it. -/
def cut : List Char → List Char × List Char
  | [] => ([], [])
  | c :: cs => if c == Char.ofNat 0x2D then ([], cs) else ((c :: (cut cs).1), (cut cs).2)

/-- The function `extractPart`: the next part of the header, which must be
`n` lower-case hexadecimal digits, and the rest of the header. -/
def extractPart (h : List Char) (n : Nat) : Option (Nat × List Char) :=
  if (cut h).1.length != n then none
  else
    match parseHex 0 (cut h).1 with
    | some v => some (v, (cut h).2)
    | none => none

/-- The method `TraceContext.extract`: the span context the `traceparent`
header holds, or the empty one.  The trace state is kept as the text of the
`tracestate` header (Go parses it and drops one that is malformed). -/
def extract (carrier : http.Header) : trace.SpanContext :=
  let h := (carrier.Get "traceparent").data
  if h.isEmpty then trace.SpanContext.empty
  else
    match extractPart h 2 with
    | none => trace.SpanContext.empty
    | some (version, h1) =>
      if version > 254 then trace.SpanContext.empty
      else
        match extractPart h1 32 with
        | none => trace.SpanContext.empty
        | some (traceID, h2) =>
          match extractPart h2 16 with
          | none => trace.SpanContext.empty
          | some (spanID, h3) =>
            match extractPart h3 2 with
            | none => trace.SpanContext.empty
            | some (opts, h4) =>
              if version == 0 && (!h4.isEmpty || opts > 2) then trace.SpanContext.empty
              else
                let sc : trace.SpanContext :=
                  { traceID := traceID, spanID := spanID, sampled := opts % 2 == 1,
                    traceState := carrier.Get "tracestate", remote := true }
                if sc.IsValid then sc else trace.SpanContext.empty

/-- The text of the `traceparent` header for a span context. -/
def traceparent (sc : trace.SpanContext) : String :=
  String.mk ("00-".data ++ trace.hexString 32 sc.traceID ++ "-".data
    ++ trace.hexString 16 sc.spanID ++ "-".data ++ (if sc.sampled then "01" else "00").data)

/-- The method `TraceContext.Inject`. -/
def TraceContextInject (ctx : Context) (carrier : http.Header) : http.Header :=
  if !ctx.span.IsValid then carrier
  else
    let c1 := if ctx.span.traceState != "" then carrier.Set "tracestate" ctx.span.traceState
              else carrier
    c1.Set "traceparent" (traceparent ctx.span)

/-- The method `TraceContext.Extract`. -/
def TraceContextExtract (ctx : Context) (carrier : http.Header) : Context :=
  if (extract carrier).IsValid then { ctx with span := extract carrier } else ctx

/-- The method `Baggage.Inject`. -/
def BaggageInject (ctx : Context) (carrier : http.Header) : http.Header :=
  if ctx.baggage != "" then carrier.Set "baggage" ctx.baggage else carrier

/-- The method `Baggage.Extract`; `parse` is `baggage.Parse`, the text of the
baggage a header holds. -/
def BaggageExtract (parse : String → Option String) (ctx : Context) (carrier : http.Header) :
    Context :=
  if carrier.Get "baggage" == "" then ctx
  else
    match parse (carrier.Get "baggage") with
    | some b => { ctx with baggage := b }
    | none => ctx

/-- The propagator both services install in `initTracer`:
`NewCompositeTextMapPropagator(TraceContext{}, Baggage{})`, its `Inject`. -/
def Inject (ctx : Context) (carrier : http.Header) : http.Header :=
  BaggageInject ctx (TraceContextInject ctx carrier)

/-- The propagator both services install in `initTracer`, its `Extract`. -/
def Extract (parse : String → Option String) (ctx : Context) (carrier : http.Header) : Context :=
  BaggageExtract parse (TraceContextExtract ctx carrier) carrier

end propagation

/-! ## The tracer of `initTracer` and the otelhttp instrumentation -/

/-- The random numbers an identifier generator draws for one span. -/
structure IDs where
  trace : Nat
  span : Nat
deriving DecidableEq

namespace sdktrace

/-- The method `tracer.Start` of the provider `initTracer` builds (sampler
`AlwaysSample`): the context with the new span.  The span keeps the trace
of a valid parent and starts a new trace otherwise; the generator draws
non-zero identifiers. -/
def Start (ids : IDs) (ctx : Context) : Context :=
  { ctx with span :=
      { traceID := if ctx.span.IsValid then ctx.span.traceID else 1 + ids.trace % (2 ^ 128 - 1),
        spanID := 1 + ids.span % (2 ^ 64 - 1),
        sampled := true,
        traceState := if ctx.span.IsValid then ctx.span.traceState else "",
        remote := false } }

end sdktrace

/-- The answers of the world a service runs in. -/
structure World where
  /-- The function `os.Getenv`. -/
  getenv : String → String
  /-- The error `url.Parse` gives for a URL, through `http.NewRequestWithContext`. -/
  parseURLError : String → Option String
  /-- The method `RoundTrip` of `http.DefaultTransport`: the response, or the
  transport error. -/
  roundTrip : http.Request → Except String http.Response
  /-- The call `req.URL.Parse(loc)` of the client: the URL a `Location` header
  names, seen from the URL of the request, or the error parsing it. -/
  resolveReference : String → String → Except String String
  /-- The headers the client gives the next request of a redirect: those of
  the first request it copies, and the `Referer`; from the headers of the
  first request, the URL of the last one, the URL of the next one and
  whether the next request carries the body. -/
  redirectHeader : http.Header → String → String → Bool → http.Header
  /-- The text `%v` prints for the float64 a number literal is converted to. -/
  formatFloat : List Nat → String
  /-- The function `baggage.Parse`. -/
  parseBaggage : String → Option String
  /-- The draws for the span of `otelhttp.NewHandler`. -/
  serverIDs : IDs
  /-- The draws for the span of `otelhttp.NewTransport`. -/
  clientIDs : IDs
  /-- The draw of `rand.Intn`. -/
  rand : Nat

namespace otelhttp

/-- The handler `otelhttp.NewHandler(mux, name)` wraps the routes in: the
request it hands on, whose context holds the server span, started under
the span context extracted from the headers. -/
def NewHandler (w : World) (r : http.Request) : http.Request :=
  { r with ctx := sdktrace.Start w.serverIDs (propagation.Extract w.parseBaggage r.ctx r.Header) }

/-- The transport `otelhttp.NewTransport(http.DefaultTransport)`: the request
it hands to the base transport, whose context holds the client span and
whose headers hold the injected span context. -/
def NewTransport (w : World) (r : http.Request) : http.Request :=
  { r with ctx := sdktrace.Start w.clientIDs r.ctx,
           Header := propagation.Inject (sdktrace.Start w.clientIDs r.ctx) r.Header }

end otelhttp

/-! ## services/api-gateway/main.go -/

namespace gateway

/-- The request the client builds to follow a redirect of `req`, the first
request being `ireq`: the context of the first request, the method
`redirectBehavior` gives, the URL the `Location` header names, and the body
of the first request when the redirect keeps it. -/
def nextRequest (w : World) (ireq req : http.Request) (method : String) (includeBody : Bool)
    (url : String) : http.Request :=
  { ctx := ireq.ctx, Method := method, URL := url,
    Header := w.redirectHeader ireq.Header req.URL url includeBody,
    Body := if includeBody then ireq.Body else [], BodyErr := none }

/-- The loop of `Client.do` for `httpClient`, which `main` builds with the
otelhttp transport over `http.DefaultTransport`, a timeout and no
`CheckRedirect`: the result of `httpClient.Do`, and the requests handed to
the base transport, in order.  The client sends `req`; on a 301, 302, 303,
307 or 308 response with a `Location` header it sends the next request, and
the default policy stops with an error after 10 requests (`left` counts the
redirects still allowed); once a redirect has dropped the body it is not
sent again. -/
def clientDo (w : World) (ireq : http.Request) :
    Nat → http.Request → Bool → Except String http.Response × List http.Request
  | left, req, includeBody =>
    match w.roundTrip (otelhttp.NewTransport w req) with
    | .error e => (.error e, [otelhttp.NewTransport w req])
    | .ok resp =>
      if (http.redirectBehavior req.Method resp.StatusCode).2.1 = false then
        (.ok resp, [otelhttp.NewTransport w req])
      else if resp.Header.Get "Location" = "" then (.ok resp, [otelhttp.NewTransport w req])
      else
        match w.resolveReference req.URL (resp.Header.Get "Location") with
        | .error e =>
          (.error ("failed to parse Location header: " ++ e), [otelhttp.NewTransport w req])
        | .ok url =>
          match left with
          | 0 => (.error "stopped after 10 redirects", [otelhttp.NewTransport w req])
          | n + 1 =>
            (((clientDo w ireq n
                (nextRequest w ireq req (http.redirectBehavior req.Method resp.StatusCode).1
                  (includeBody && (http.redirectBehavior req.Method resp.StatusCode).2.2) url)
                (includeBody && (http.redirectBehavior req.Method resp.StatusCode).2.2)).1),
              otelhttp.NewTransport w req ::
                (clientDo w ireq n
                  (nextRequest w ireq req (http.redirectBehavior req.Method resp.StatusCode).1
                    (includeBody && (http.redirectBehavior req.Method resp.StatusCode).2.2) url)
                  (includeBody && (http.redirectBehavior req.Method resp.StatusCode).2.2)).2)

/-- The call `httpClient.Do(req)`: the response of the order service, or the
last response after the client followed redirects, or the error. -/
def httpClientDo (w : World) (req : http.Request) : Except String http.Response :=
  (clientDo w req 9 req true).1

/-- The requests `httpClient.Do(req)` puts on the wire, in order: each is
handed to `http.DefaultTransport` by the otelhttp transport. -/
def wireRequests (w : World) (req : http.Request) : List http.Request :=
  (clientDo w req 9 req true).2

/-- The handler `handleHealth`. -/
def handleHealth : List Event :=
  [ .HeaderSet "Content-Type" "application/json",
    .Write (utf8 "\x7b\"status\":\"healthy\",\"service\":\"api-gateway\"\x7d") ]

/-- The URL of the order service: `ORDER_SERVICE_URL`, or the default. -/
def orderServiceURL (w : World) : String :=
  if w.getenv "ORDER_SERVICE_URL" = "" then "http://localhost:8081" else w.getenv "ORDER_SERVICE_URL"

/-- The request `http.NewRequestWithContext(ctx, http.MethodPost,
orderServiceURL+"/orders", bytes.NewReader(body))` builds, with the content
type set. -/
def newRequest (w : World) (ctx : Context) (body : List Nat) : http.Request :=
  { ctx := ctx, Method := http.MethodPost, URL := orderServiceURL w ++ "/orders",
    Header := http.Header.Set [] "Content-Type" "application/json",
    Body := body, BodyErr := none }

/-- The arguments every log line of the handler starts with. -/
def loggerArgs (r : http.Request) : List (String × LogValue) :=
  [("trace_id", .str (trace.TraceIDString r.ctx.span)), ("service", .str "api-gateway")]

/-- The end of `handleCreateOrder`, after `httpClient.Do` returned.  When
`WriteHeader` panics on the status code, `Write` is not reached; the
deferred calls run. -/
def relay (r : http.Request) : Except String http.Response → List Event
  | .error e =>
    [.log .Error "order service request failed" (loggerArgs r ++ [("error", .err e)])]
      ++ http.Error "\x7b\"error\":\"order service unavailable\"\x7d" http.StatusBadGateway
  | .ok resp =>
    (match resp.BodyErr with
      | some e =>
        [.log .Error "failed to read order service response" (loggerArgs r ++ [("error", .err e)])]
          ++ http.Error "\x7b\"error\":\"internal error\"\x7d" http.StatusInternalServerError
      | none =>
        [ if resp.StatusCode ≥ 400 then
            .log .Error "order service returned error"
              (loggerArgs r ++ [("status", .int resp.StatusCode),
                ("response", .bytes resp.Body)])
          else
            .log .Info "order processed successfully"
              (loggerArgs r ++ [("status", .int resp.StatusCode)]),
          .HeaderSet "Content-Type" "application/json",
          .WriteHeader resp.StatusCode ]
          ++ (if http.checkWriteHeaderCode resp.StatusCode then [.Write resp.Body] else []))
      ++ [.CloseResponseBody]

/-- The handler `handleCreateOrder`: the effects of one run, in order. -/
def handleCreateOrder (w : World) (r : http.Request) : List Event :=
  match r.BodyErr with
  | some e =>
    [.log .Error "failed to read request body" (loggerArgs r ++ [("error", .err e)])]
      ++ http.Error "\x7b\"error\":\"failed to read request\"\x7d" http.StatusBadRequest
  | none =>
    (match json.Unmarshal r.Body with
      | .error e =>
        [.log .Error "invalid JSON payload" (loggerArgs r ++ [("error", .jsonErr e)])]
          ++ http.Error "\x7b\"error\":\"invalid JSON\"\x7d" http.StatusBadRequest
      | .ok order =>
        [ .log .Info "received order request" (loggerArgs r ++ [("order", .map order)]),
          .SetAttributes
            [("order.customer", .String (fmt.Sprintv w.formatFloat (order.index "customer_id")))] ]
          ++
          (match w.parseURLError (orderServiceURL w ++ "/orders") with
            | some e =>
              [.log .Error "failed to create request" (loggerArgs r ++ [("error", .err e)])]
                ++ http.Error "\x7b\"error\":\"internal error\"\x7d"
                    http.StatusInternalServerError
            | none =>
              [.Do (newRequest w r.ctx r.Body)]
                ++ relay r (httpClientDo w (newRequest w r.ctx r.Body))))
      ++ [.CloseRequestBody]

/-- The handler `main` serves, on a request routed to `POST /api/orders`: the
handler of `otelhttp.NewHandler` calls `handleCreateOrder` with the request
that holds the server span. -/
def serveCreateOrder (w : World) (r : http.Request) : List Event :=
  handleCreateOrder w (otelhttp.NewHandler w r)

end gateway

/-! ## encoding/json: stream.go and encode.go -/

namespace json

/-- The loop of `Decoder.readValue` over the bytes read: the scanner where
it stops, and the length of the first value or the syntax error; `none` when
the bytes end inside or before the value. -/
def readValueLoop (s : scanner) (n : Nat) : List Nat → scanner × Option (Except Error Nat)
  | [] => (s, none)
  | c :: cs =>
    let r := s.stepFn c
    match r.2 with
    | .scanEnd => (r.1, some (.ok n))
    | .scanEndObject =>
      if (stateEndValue r.1 0x20).2 = .scanEnd then (r.1, some (.ok (n + 1)))
      else readValueLoop (stateEndValue r.1 0x20).1 (n + 1) cs
    | .scanEndArray =>
      if (stateEndValue r.1 0x20).2 = .scanEnd then (r.1, some (.ok (n + 1)))
      else readValueLoop (stateEndValue r.1 0x20).1 (n + 1) cs
    | .scanError => (r.1, some (.error (.SyntaxError (r.1.err.getD ""))))
    | _ => readValueLoop r.1 (n + 1) cs

/-- The method `Decoder.readValue` on a stream that gives `data` and then
ends, with `io.EOF` or with an error: the bytes of the first JSON value. -/
def readValue (data : List Nat) (err : Option String) : Except Error (List Nat) :=
  match readValueLoop scanner.reset 0 data with
  | (_, some (.ok n)) => .ok (data.take n)
  | (_, some (.error e)) => .error e
  | (s, none) =>
    match err with
    | some e => .error (.readError e)
    | none =>
      if (s.stepFn 0x20).2 = .scanEnd then .ok data
      else if data.any (fun c => !isSpace c) then .error .ErrUnexpectedEOF
      else .error .EOF

/-- The rune `foldRune` gives: the upper-case letter for an ASCII letter, for
the long s and for the Kelvin sign, the only other runes in the fold set of
an ASCII letter.  Another rune folds to some rune that is not ASCII; it is
left as it is, which changes no comparison with an ASCII name. -/
def foldRune (c : Char) : Char :=
  if c.toNat == 0x17F then Char.ofNat 0x53
  else if c.toNat == 0x212A then Char.ofNat 0x4B
  else if 0x61 ≤ c.toNat && c.toNat ≤ 0x7A then Char.ofNat (c.toNat - 0x20)
  else c

/-- The function `foldName`: a name with the case of its letters folded. -/
def foldName (name : String) : String := String.mk (name.data.map foldRune)

/-- A lower-case hexadecimal digit, as a byte. -/
def hexByte (n : Nat) : Nat := if n < 10 then 0x30 + n else 0x61 + (n - 10)

/-- What `appendString` (with HTML escaping, as `Encoder.Encode` calls it)
writes for one rune of a string. -/
def appendRune (c : Char) : List Nat :=
  let n := c.toNat
  if n == 0x22 || n == 0x5C then [0x5C, n]
  else if n == 0x08 then [0x5C, 0x62]
  else if n == 0x0C then [0x5C, 0x66]
  else if n == 0x0A then [0x5C, 0x6E]
  else if n == 0x0D then [0x5C, 0x72]
  else if n == 0x09 then [0x5C, 0x74]
  else if n < 0x20 || n == 0x3C || n == 0x3E || n == 0x26 then
    [0x5C, 0x75, 0x30, 0x30, hexByte (n / 16), hexByte (n % 16)]
  else if n == 0x2028 || n == 0x2029 then [0x5C, 0x75, 0x32, 0x30, 0x32, hexByte (n % 16)]
  else encodeRune c

/-- The runes of a string as `appendString` writes them. -/
def appendRunes : List Char → List Nat
  | [] => []
  | c :: cs => appendRune c ++ appendRunes cs

/-- The function `appendString`: a Go string as a JSON string literal. -/
def appendString (s : String) : List Nat := [0x22] ++ appendRunes s.data ++ [0x22]

end json

/-! ## services/inventory-service/main.go -/

namespace inventory

/-- The request struct of `handleCheck`. -/
structure CheckRequest where
  OrderID : String
  Items : List json.Value

/-- The fields of the request struct. -/
inductive Field where
  | OrderID
  | Items
deriving DecidableEq

/-- The field an object key is stored in: the one whose `json` tag is the
key, or else the one whose tag is the key up to case. -/
def fieldOf (key : String) : Option Field :=
  if key = "order_id" then some .OrderID
  else if key = "items" then some .Items
  else if json.foldName key = "ORDER_ID" then some .OrderID
  else if json.foldName key = "ITEMS" then some .Items
  else none

/-- The name `UnmarshalTypeError` gives the kind of a value. -/
def kindName : json.Value → String
  | .null => "null"
  | .bool _ => "bool"
  | .number _ => "number"
  | .string _ => "string"
  | .array _ => "array"
  | .object _ => "object"

/-- The struct and the error saved so far, while the decoder stores a
request. -/
structure Stored where
  req : CheckRequest
  savedError : Option json.Error

/-- The method `saveError`: keeps the first error. -/
def Stored.saveError (st : Stored) (e : json.Error) : Stored :=
  match st.savedError with
  | some _ => st
  | none => { st with savedError := some e }

/-- Stores one member of the object into the struct: a string into
`OrderID`, an array into `Items`; `null` leaves a string as it is and
empties a slice; a value of another kind is a type error; a member no
field matches is skipped. -/
def storeMember (st : Stored) (kv : String × json.Value) : Stored :=
  match fieldOf kv.1 with
  | none => st
  | some .OrderID =>
    match kv.2 with
    | .string s => { st with req := { st.req with OrderID := s } }
    | .null => st
    | v => st.saveError (.UnmarshalTypeError (kindName v))
  | some .Items =>
    match kv.2 with
    | .array items =>
      let st1 : Stored := { st with req := { st.req with Items := items } }
      if json.hasRangeErrorList items then st1.saveError (.UnmarshalTypeError "number") else st1
    | .null => { st with req := { st.req with Items := [] } }
    | v => st.saveError (.UnmarshalTypeError (kindName v))

/-- The method `d.unmarshal(&req)` on the bytes of one value. -/
def unmarshal (data : List Nat) : Stored :=
  let zero : Stored := { req := { OrderID := "", Items := [] }, savedError := none }
  match json.decodeValue data with
  | .object ms => ms.foldl storeMember zero
  | .null => zero
  | v => zero.saveError (.UnmarshalTypeError (kindName v))

/-- The call `json.NewDecoder(r.Body).Decode(&req)`: the error, or the
request struct. -/
def Decode (r : http.Request) : Except json.Error CheckRequest :=
  match json.readValue r.Body r.BodyErr with
  | .error e => .error e
  | .ok data =>
    match (unmarshal data).savedError with
    | some e => .error e
    | none => .ok (unmarshal data).req

/-- Whether storing the member saves an error: it is stored in `OrderID` and
is neither a string nor `null`, or it is stored in `Items` and is neither an
array nor `null`, or it is an array that holds a number outside the float64
range. -/
def mismatch (kv : String × json.Value) : Bool :=
  match fieldOf kv.1 with
  | none => false
  | some .OrderID =>
    match kv.2 with
    | .string _ => false
    | .null => false
    | _ => true
  | some .Items =>
    match kv.2 with
    | .array items => json.hasRangeErrorList items
    | .null => false
    | _ => true

/-- Whether a JSON value is no request: it is neither an object nor `null`,
or it is an object with a member that cannot be stored. -/
def rejects : json.Value → Bool
  | .object ms => ms.any mismatch
  | .null => false
  | _ => true

/-- The type `time.Duration` counts nanoseconds. -/
def Millisecond : Nat := 1000000

/-- The function `rand.Intn`: a number below `n`. -/
def randIntn (w : World) (n : Nat) : Nat := w.rand % n

/-- The delay of `handleCheck`, in nanoseconds:
`time.Duration(50+rand.Intn(150)) * time.Millisecond`, an int64. -/
def delay (w : World) : Nat := (50 + randIntn w 150) * Millisecond % 2 ^ 63

/-- What `json.NewEncoder(w).Encode` writes for the map of `handleCheck`:
the keys in sorted order, and a newline at the end. -/
def encodeResult (orderID : String) (inStock : Bool) (message : String) : List Nat :=
  utf8 "\x7b\"in_stock\":" ++ utf8 (if inStock then "true" else "false")
    ++ utf8 ",\"message\":" ++ json.appendString message
    ++ utf8 ",\"order_id\":" ++ json.appendString orderID ++ utf8 "\x7d\n"

/-- The arguments every log line of the handler starts with. -/
def loggerArgs (r : http.Request) : List (String × LogValue) :=
  [("trace_id", .str (trace.TraceIDString r.ctx.span)), ("service", .str "inventory-service")]

/-- The handler `handleHealth`. -/
def handleHealth : List Event :=
  [ .HeaderSet "Content-Type" "application/json",
    .Write (utf8 "\x7b\"status\":\"healthy\",\"service\":\"inventory-service\"\x7d") ]

/-- The handler `handleCheck`: the effects of one run, in order. -/
def handleCheck (w : World) (r : http.Request) : List Event :=
  match Decode r with
  | .error e =>
    [.log .Error "invalid request body" (loggerArgs r ++ [("error", .jsonErr e)])]
      ++ http.Error "\x7b\"error\":\"invalid request\"\x7d" http.StatusBadRequest
  | .ok req =>
    [ .SetAttributes
        [("order.id", .String req.OrderID), ("inventory.item_count", .Int req.Items.length)],
      .log .Info "checking inventory"
        (loggerArgs r ++ [("order_id", .str req.OrderID), ("item_count", .int req.Items.length)]),
      .Sleep (delay w),
      .SetAttributes [("inventory.in_stock", .Bool true)],
      .log .Info "inventory check passed"
        (loggerArgs r ++ [("order_id", .str req.OrderID), ("delay_ms", .int (delay w / Millisecond))]),
      .HeaderSet "Content-Type" "application/json",
      .Write (encodeResult req.OrderID true "All items available") ]

/-- The handler `main` serves, on a request routed to `POST /check`: the
handler of `otelhttp.NewHandler` calls `handleCheck` with the request that
holds the server span. -/
def serveCheck (w : World) (r : http.Request) : List Event :=
  handleCheck w (otelhttp.NewHandler w r)

end inventory

/-! ## Reading a run -/

/-- The span attributes a run sets before it first calls the HTTP client. -/
def attributesBeforeDo : List Event → List (String × AttrValue)
  | [] => []
  | .SetAttributes kv :: rest => kv ++ attributesBeforeDo rest
  | .Do _ :: _ => []
  | _ :: rest => attributesBeforeDo rest

/-- All the span attributes a run sets. -/
def spanAttributes : List Event → List (String × AttrValue)
  | [] => []
  | .SetAttributes kv :: rest => kv ++ spanAttributes rest
  | _ :: rest => spanAttributes rest

/-- The delays a run sleeps, in nanoseconds. -/
def sleeps : List Event → List Nat
  | [] => []
  | .Sleep d :: rest => d :: sleeps rest
  | _ :: rest => sleeps rest

/-- The events of a run that are not log lines. -/
def withoutLogs (events : List Event) : List Event := events.filter (fun e => !e.isLog)

/-! ## Examples used to instantiate the theorems -/

/-- A world in which no environment variable is set and the order service
answers every request with status 200 and an inventory result. -/
def exampleWorld : World :=
  { getenv := fun _ => "",
    parseURLError := fun _ => none,
    roundTrip := fun _ => .ok
      { StatusCode := 200, Header := [],
        Body := utf8 "\x7b\"order_id\":\"\",\"in_stock\":true,\"message\":\"All items available\"\x7d",
        BodyErr := none },
    resolveReference := fun _ loc => .ok loc,
    redirectHeader := fun header _ _ _ => header,
    formatFloat := fun lit => String.mk (lit.map Char.ofNat),
    parseBaggage := fun _ => none,
    serverIDs := { trace := 11, span := 12 },
    clientIDs := { trace := 21, span := 22 },
    rand := 7 }

/-- A world in which the order service cannot be reached. -/
def unreachableWorld : World :=
  { exampleWorld with
    getenv := fun name => if name = "ORDER_SERVICE_URL" then "http://orders.invalid:1" else "",
    roundTrip := fun _ => .error "dial tcp: lookup orders.invalid: no such host" }

/-- A world in which the order service answers with status 503. -/
def failingWorld : World :=
  { exampleWorld with
    roundTrip := fun _ => .ok
      { StatusCode := 503, Header := [], Body := utf8 "\x7b\"error\":\"overloaded\"\x7d",
        BodyErr := none } }

/-- A world in which the order service answers with the status line
`HTTP/1.1 099 Odd`. -/
def oddStatusWorld : World :=
  { exampleWorld with
    roundTrip := fun _ => .ok
      { StatusCode := 99, Header := [], Body := utf8 "\x7b\"order_id\":\"o1\"\x7d",
        BodyErr := none } }

/-- A world in which the order service answers a POST with status 302 and
`Location: http://localhost:8081/v2/orders`, and a GET with status 200. -/
def redirectWorld : World :=
  { exampleWorld with
    roundTrip := fun req =>
      if req.Method = "POST" then
        .ok { StatusCode := 302, Header := [("Location", "http://localhost:8081/v2/orders")],
              Body := utf8 "moved", BodyErr := none }
      else
        .ok { StatusCode := 200, Header := [], Body := utf8 "\x7b\"orders\":[]\x7d",
              BodyErr := none } }

/-- A request with the given body, read in full, and no trace headers. -/
def exampleRequest (body : String) : http.Request :=
  { ctx := { span := trace.SpanContext.empty, baggage := "" },
    Method := "POST", URL := "/api/orders", Header := [],
    Body := utf8 body, BodyErr := none }

/-- The world of a downstream service: its own draws for span identifiers. -/
def downstreamWorld : World :=
  { exampleWorld with serverIDs := { trace := 31, span := 32 }, clientIDs := { trace := 41, span := 42 } }

/-- A request that carries the `traceparent` header of an upstream caller. -/
def tracedRequest (body : String) : http.Request :=
  { exampleRequest body with
    Header := [("Traceparent", "00-0af7651916cd43dd8448eb211c80319c-b7ad6b7169203331-01")] }

/-- The order of the specification's scenario. -/
def exampleOrder : String := "\x7b\"customer_id\":\"c1\",\"items\":[\"sku1\"]\x7d"

/-! ## Lemmas on the gateway handler -/

theorem Unmarshal_of_invalid (b : List Nat) (h : json.Valid b = false) :
    ∃ msg, json.Unmarshal b = .error (.SyntaxError msg) := by
  unfold json.Valid at h
  cases hc : json.checkValid b with
  | none => simp [hc] at h
  | some msg => exact ⟨msg, by simp [json.Unmarshal, hc]⟩

/-- The run of `handleCreateOrder` when `Unmarshal` fails. -/
theorem handleCreateOrder_of_error (w : World) (r : http.Request) (e : json.Error)
    (hread : r.BodyErr = none) (he : json.Unmarshal r.Body = .error e) :
    gateway.handleCreateOrder w r =
      [.log .Error "invalid JSON payload" (gateway.loggerArgs r ++ [("error", .jsonErr e)])]
        ++ http.Error "\x7b\"error\":\"invalid JSON\"\x7d" http.StatusBadRequest
        ++ [.CloseRequestBody] := by
  simp [gateway.handleCreateOrder, hread, he]

/-- The run of `handleCreateOrder` when the body is accepted and the request
to the order service can be built. -/
theorem handleCreateOrder_of_ok (w : World) (r : http.Request) (order : json.Map)
    (hread : r.BodyErr = none) (hok : json.Unmarshal r.Body = .ok order)
    (hurl : w.parseURLError (gateway.orderServiceURL w ++ "/orders") = none) :
    gateway.handleCreateOrder w r =
      [ .log .Info "received order request" (gateway.loggerArgs r ++ [("order", .map order)]),
        .SetAttributes
          [("order.customer", .String (fmt.Sprintv w.formatFloat (order.index "customer_id")))],
        .Do (gateway.newRequest w r.ctx r.Body) ]
        ++ gateway.relay r (gateway.httpClientDo w (gateway.newRequest w r.ctx r.Body))
        ++ [.CloseRequestBody] := by
  simp [gateway.handleCreateOrder, hread, hok, hurl]

theorem sentRequests_append (a b : List Event) :
    sentRequests (a ++ b) = sentRequests a ++ sentRequests b := by
  induction a with
  | nil => rfl
  | cons e rest ih => cases e <;> simp [sentRequests, ih]

theorem sentRequests_relay (r : http.Request) (res : Except String http.Response) :
    sentRequests (gateway.relay r res) = [] := by
  cases res with
  | error e => rfl
  | ok resp =>
    cases hb : resp.BodyErr with
    | none =>
      by_cases h : 400 ≤ resp.StatusCode <;>
        by_cases hc : http.checkWriteHeaderCode resp.StatusCode = true <;>
          simp [gateway.relay, hb, h, hc, sentRequests]
    | some e => simp [gateway.relay, hb, sentRequests_append, sentRequests, http.Error]

theorem attributesBeforeDo_of_ok (w : World) (r : http.Request) (order : json.Map)
    (hread : r.BodyErr = none) (hok : json.Unmarshal r.Body = .ok order) :
    attributesBeforeDo (gateway.handleCreateOrder w r)
      = [("order.customer", .String (fmt.Sprintv w.formatFloat (order.index "customer_id")))] := by
  cases hurl : w.parseURLError (gateway.orderServiceURL w ++ "/orders") with
  | none =>
    rw [handleCreateOrder_of_ok w r order hread hok hurl]
    rfl
  | some e =>
    simp [gateway.handleCreateOrder, hread, hok, hurl, attributesBeforeDo, http.Error]

/-- A run of `handleCreateOrder` sends nothing, or the one request built
from the context and body of the request it handles. -/
theorem sentRequests_handleCreateOrder (w : World) (r : http.Request) :
    sentRequests (gateway.handleCreateOrder w r) = [] ∨
    sentRequests (gateway.handleCreateOrder w r) = [gateway.newRequest w r.ctx r.Body] := by
  cases hread : r.BodyErr with
  | some e => left; simp [gateway.handleCreateOrder, hread, sentRequests, http.Error]
  | none =>
    cases hu : json.Unmarshal r.Body with
    | error e => left; rw [handleCreateOrder_of_error w r e hread hu]; rfl
    | ok order =>
      cases hurl : w.parseURLError (gateway.orderServiceURL w ++ "/orders") with
      | some e =>
        left
        simp [gateway.handleCreateOrder, hread, hu, hurl, sentRequests, http.Error]
      | none =>
        right
        rw [handleCreateOrder_of_ok w r order hread hu hurl]
        simp [sentRequests_append, sentRequests, sentRequests_relay]

/-- When the first response of the order service is no redirect the client
follows, `httpClient.Do` returns it and one request went on the wire. -/
theorem clientDo_of_final (w : World) (req : http.Request) (resp : http.Response)
    (hrt : w.roundTrip (otelhttp.NewTransport w req) = .ok resp)
    (hfinal : (http.redirectBehavior req.Method resp.StatusCode).2.1 = false ∨
      resp.Header.Get "Location" = "") :
    gateway.httpClientDo w req = .ok resp ∧
    gateway.wireRequests w req = [otelhttp.NewTransport w req] := by
  unfold gateway.httpClientDo gateway.wireRequests gateway.clientDo
  simp only [hrt]
  rcases hfinal with h | h
  · simp [h]
  · by_cases h1 : (http.redirectBehavior req.Method resp.StatusCode).2.1 = false
    · simp [h1]
    · simp [h1, h]

/-- The first request on the wire is the request given to `httpClient.Do`,
as the otelhttp transport hands it on. -/
theorem clientDo_head (w : World) (ireq : http.Request) (left : Nat) (req : http.Request)
    (includeBody : Bool) :
    (gateway.clientDo w ireq left req includeBody).2.head?
      = some (otelhttp.NewTransport w req) := by
  unfold gateway.clientDo
  cases hrt : w.roundTrip (otelhttp.NewTransport w req) with
  | error e => rfl
  | ok resp =>
    simp only []
    by_cases h1 : (http.redirectBehavior req.Method resp.StatusCode).2.1 = false
    · simp [h1]
    · by_cases h2 : resp.Header.Get "Location" = ""
      · simp [h1, h2]
      · cases hu : w.resolveReference req.URL (resp.Header.Get "Location") with
        | error e => simp [h1, h2]
        | ok url =>
          cases left with
          | zero => simp [h1, h2]
          | succ n => simp [h1, h2]

/-- When the transport fails on the first request, one request went on the
wire. -/
theorem clientDo_of_error (w : World) (req : http.Request) (e : String)
    (hrt : w.roundTrip (otelhttp.NewTransport w req) = .error e) :
    gateway.httpClientDo w req = .error e ∧
    gateway.wireRequests w req = [otelhttp.NewTransport w req] := by
  unfold gateway.httpClientDo gateway.wireRequests gateway.clientDo
  simp [hrt]

/-- When the first response is a redirect the client follows, the second
request on the wire is the next request the client builds. -/
theorem wireRequests_of_redirect (w : World) (req : http.Request) (resp : http.Response)
    (url : String)
    (hrt : w.roundTrip (otelhttp.NewTransport w req) = .ok resp)
    (hre : (http.redirectBehavior req.Method resp.StatusCode).2.1 = true)
    (hloc : resp.Header.Get "Location" ≠ "")
    (hurl : w.resolveReference req.URL (resp.Header.Get "Location") = .ok url) :
    (gateway.wireRequests w req).tail.head?
      = some (otelhttp.NewTransport w
          (gateway.nextRequest w req req (http.redirectBehavior req.Method resp.StatusCode).1
            (http.redirectBehavior req.Method resp.StatusCode).2.2 url)) := by
  unfold gateway.wireRequests
  rw [gateway.clientDo]
  simp only [hrt, hre, hloc, hurl, Bool.true_and, if_false, Bool.true_eq_false]
  exact clientDo_head w req 8 _ _

theorem redirectBehavior_post_get (s : Nat) (h : s = 301 ∨ s = 302 ∨ s = 303) :
    http.redirectBehavior "POST" s = ("GET", true, false) := by
  rcases h with h | h | h <;> subst h <;> decide

theorem redirectBehavior_post_kept (s : Nat) (h : s = 307 ∨ s = 308) :
    http.redirectBehavior "POST" s = ("POST", true, true) := by
  rcases h with h | h <;> subst h <;> decide

theorem redirectBehavior_post_none (s : Nat)
    (h : s ≠ 301 ∧ s ≠ 302 ∧ s ≠ 303 ∧ s ≠ 307 ∧ s ≠ 308) :
    (http.redirectBehavior "POST" s).2.1 = false := by
  obtain ⟨h1, h2, h3, h4, h5⟩ := h
  simp [http.redirectBehavior, h1, h2, h3, h4, h5]

/-- What `Unmarshal` returns on `null` and on a valid JSON object whose
numbers fit a float64. -/
theorem Unmarshal_of_object_or_null (b : List Nat) (h : json.Valid b = true)
    (hshape : json.decodeValue b = .null ∨
      ∃ ms, json.decodeValue b = .object ms ∧ json.hasRangeErrorMembers ms = false) :
    ∃ order, json.Unmarshal b = .ok order := by
  have hc : json.checkValid b = none := by
    unfold json.Valid at h
    cases hc : json.checkValid b with
    | none => rfl
    | some msg => simp [hc] at h
  rcases hshape with hv | ⟨ms, hv, hr⟩
  · exact ⟨[], by simp [json.Unmarshal, hc, hv]⟩
  · exact ⟨ms, by simp [json.Unmarshal, hc, hv, hr]⟩

/-- The run of `handleCreateOrder` when `httpClient.Do` returns a response
whose body is read in full and whose status code `WriteHeader` accepts. -/
theorem handleCreateOrder_of_relayed (w : World) (r : http.Request) (order : json.Map)
    (resp : http.Response)
    (hread : r.BodyErr = none) (hok : json.Unmarshal r.Body = .ok order)
    (hurl : w.parseURLError (gateway.orderServiceURL w ++ "/orders") = none)
    (hdo : gateway.httpClientDo w (gateway.newRequest w r.ctx r.Body) = .ok resp)
    (hbody : resp.BodyErr = none) (hcode : http.checkWriteHeaderCode resp.StatusCode = true) :
    gateway.handleCreateOrder w r =
      [ .log .Info "received order request" (gateway.loggerArgs r ++ [("order", .map order)]),
        .SetAttributes
          [("order.customer", .String (fmt.Sprintv w.formatFloat (order.index "customer_id")))],
        .Do (gateway.newRequest w r.ctx r.Body),
        (if resp.StatusCode ≥ 400 then
            .log .Error "order service returned error"
              (gateway.loggerArgs r ++ [("status", .int resp.StatusCode),
                ("response", .bytes resp.Body)])
          else
            .log .Info "order processed successfully"
              (gateway.loggerArgs r ++ [("status", .int resp.StatusCode)])),
        .HeaderSet "Content-Type" "application/json",
        .WriteHeader resp.StatusCode,
        .Write resp.Body,
        .CloseResponseBody,
        .CloseRequestBody ] := by
  rw [handleCreateOrder_of_ok w r order hread hok hurl, hdo]
  simp [gateway.relay, hbody, hcode]

/-- The response the caller receives from events that set the content type,
write a status code from 200 to 999 and write a body the status allows,
with log lines and other calls in between. -/
theorem respond_relayed (pre : List Event) (line : Event) (s : Nat) (b : List Nat)
    (hpre : http.respond pre = http.Recorded.init) (hline : line.isLog = true)
    (h1 : 200 ≤ s) (h2 : s ≤ 999) (hallowed : b = [] ∨ (s ≠ 204 ∧ s ≠ 304)) :
    (http.respond (pre ++ [line, .HeaderSet "Content-Type" "application/json",
      .WriteHeader s, .Write b, .CloseResponseBody, .CloseRequestBody])).Code = s ∧
    (http.respond (pre ++ [line, .HeaderSet "Content-Type" "application/json",
      .WriteHeader s, .Write b, .CloseResponseBody, .CloseRequestBody])).Body = b ∧
    (http.respond (pre ++ [line, .HeaderSet "Content-Type" "application/json",
      .WriteHeader s, .Write b, .CloseResponseBody, .CloseRequestBody])).sent
      = http.Header.Set [] "Content-Type" "application/json" ∧
    (http.respond (pre ++ [line, .HeaderSet "Content-Type" "application/json",
      .WriteHeader s, .Write b, .CloseResponseBody, .CloseRequestBody])).panicked = false := by
  have hl : http.Recorded.step http.Recorded.init line = http.Recorded.init := by
    cases line <;> simp [Event.isLog] at hline
    rfl
  have hc : http.checkWriteHeaderCode s = true := by
    simp [http.checkWriteHeaderCode]
    omega
  have hi : (100 ≤ s && s ≤ 199 && s != 101) = false := by
    simp
    omega
  unfold http.respond at hpre ⊢
  rw [List.foldl_append, hpre]
  simp only [List.foldl, hl]
  have hw : http.Recorded.step
      (http.Recorded.step http.Recorded.init (.HeaderSet "Content-Type" "application/json"))
      (.WriteHeader s)
      = { wroteHeader := true, Code := s, HeaderMap := http.Header.Set [] "Content-Type"
            "application/json", sent := http.Header.Set [] "Content-Type" "application/json",
          Body := [], informational := [], panicked := false } := by
    simp [http.Recorded.step, http.Recorded.init, http.Recorded.WriteHeader, hc, hi]
  rw [hw]
  by_cases ha : http.bodyAllowedForStatus s = true
  · simp [http.Recorded.step, http.Recorded.Write, ha]
  · have hb : b = [] := by
      rcases hallowed with h | h
      · exact h
      · exfalso
        apply ha
        simp [http.bodyAllowedForStatus]
        omega
    subst hb
    simp [http.Recorded.step, http.Recorded.Write, ha]

/-- Data that `Unmarshal` accepts is valid JSON. -/
theorem valid_of_Unmarshal_ok (b : List Nat) (order : json.Map)
    (h : json.Unmarshal b = .ok order) : json.Valid b = true := by
  unfold json.Valid
  cases hc : json.checkValid b with
  | none => rfl
  | some msg => simp [json.Unmarshal, hc] at h

/-- A run of `handleCreateOrder` that sends a request handles a valid JSON
body. -/
theorem valid_of_sent (w : World) (r : http.Request) (req : http.Request)
    (hsent : req ∈ sentRequests (gateway.handleCreateOrder w r)) :
    json.Valid r.Body = true := by
  cases hread : r.BodyErr with
  | some e =>
    simp [gateway.handleCreateOrder, hread, sentRequests, http.Error] at hsent
  | none =>
    cases hu : json.Unmarshal r.Body with
    | error e =>
      rw [handleCreateOrder_of_error w r e hread hu] at hsent
      cases hsent
    | ok order => exact valid_of_Unmarshal_ok r.Body order hu

/-! ## Lemmas on the inventory handler -/

/-- The run of `handleCheck` when `Decode` fails. -/
theorem handleCheck_of_error (w : World) (r : http.Request) (e : json.Error)
    (he : inventory.Decode r = .error e) :
    inventory.handleCheck w r =
      [.log .Error "invalid request body" (inventory.loggerArgs r ++ [("error", .jsonErr e)])]
        ++ http.Error "\x7b\"error\":\"invalid request\"\x7d" http.StatusBadRequest := by
  simp [inventory.handleCheck, he]

/-- The run of `handleCheck` when `Decode` succeeds. -/
theorem handleCheck_of_ok (w : World) (r : http.Request) (req : inventory.CheckRequest)
    (hok : inventory.Decode r = .ok req) :
    inventory.handleCheck w r =
      [ .SetAttributes
          [("order.id", .String req.OrderID), ("inventory.item_count", .Int req.Items.length)],
        .log .Info "checking inventory"
          (inventory.loggerArgs r
            ++ [("order_id", .str req.OrderID), ("item_count", .int req.Items.length)]),
        .Sleep (inventory.delay w),
        .SetAttributes [("inventory.in_stock", .Bool true)],
        .log .Info "inventory check passed"
          (inventory.loggerArgs r ++ [("order_id", .str req.OrderID),
            ("delay_ms", .int (inventory.delay w / inventory.Millisecond))]),
        .HeaderSet "Content-Type" "application/json",
        .Write (inventory.encodeResult req.OrderID true "All items available") ] := by
  simp [inventory.handleCheck, hok]

theorem storeMember_savedError (st : inventory.Stored) (kv : String × json.Value) :
    (inventory.storeMember st kv).savedError.isSome
      = (st.savedError.isSome || inventory.mismatch kv) := by
  unfold inventory.storeMember inventory.mismatch
  cases hf : inventory.fieldOf kv.1 with
  | none => simp
  | some f =>
    cases f with
    | OrderID =>
      cases hv : kv.2 <;> cases hs : st.savedError <;>
        simp [inventory.Stored.saveError, hs]
    | Items =>
      cases hv : kv.2 with
      | array items =>
        cases hr : json.hasRangeErrorList items <;> cases hs : st.savedError <;>
          simp [inventory.Stored.saveError, hs, hr]
      | null => cases hs : st.savedError <;> simp [hs]
      | bool b => cases hs : st.savedError <;> simp [inventory.Stored.saveError, hs]
      | number l => cases hs : st.savedError <;> simp [inventory.Stored.saveError, hs]
      | string x => cases hs : st.savedError <;> simp [inventory.Stored.saveError, hs]
      | object ms => cases hs : st.savedError <;> simp [inventory.Stored.saveError, hs]

theorem foldl_storeMember_savedError (ms : List (String × json.Value)) (st : inventory.Stored) :
    (ms.foldl inventory.storeMember st).savedError.isSome
      = (st.savedError.isSome || ms.any inventory.mismatch) := by
  induction ms generalizing st with
  | nil => simp
  | cons kv ms ih =>
    rw [List.foldl_cons, ih, storeMember_savedError, List.any_cons, Bool.or_assoc]

/-- Storing a JSON value into the request struct saves an error exactly when
the value is no request. -/
theorem unmarshal_savedError (data : List Nat) :
    (inventory.unmarshal data).savedError.isSome = inventory.rejects (json.decodeValue data) := by
  unfold inventory.unmarshal inventory.rejects
  cases json.decodeValue data with
  | object ms => simp [foldl_storeMember_savedError]
  | null => rfl
  | bool b => rfl
  | number l => rfl
  | string x => rfl
  | array xs => rfl

/-- The call `Decode` returns an error exactly when the body does not start
with a complete JSON value or that value is no request. -/
theorem Decode_error_iff (r : http.Request) :
    (∃ e, inventory.Decode r = .error e) ↔
      ((∃ e, json.readValue r.Body r.BodyErr = .error e) ∨
       (∃ data, json.readValue r.Body r.BodyErr = .ok data ∧
          inventory.rejects (json.decodeValue data) = true)) := by
  unfold inventory.Decode
  cases hrv : json.readValue r.Body r.BodyErr with
  | error e => simp
  | ok data =>
    have hu := unmarshal_savedError data
    cases hs : (inventory.unmarshal data).savedError with
    | none =>
      rw [hs] at hu
      simp at hu
      simp [hu, hs]
    | some e =>
      rw [hs] at hu
      simp at hu
      simp [hu, hs]

/-- The delay is the drawn number of milliseconds: the int64 does not wrap. -/
theorem delay_eq (w : World) :
    inventory.delay w = (50 + w.rand % 150) * inventory.Millisecond := by
  have h : w.rand % 150 < 150 := Nat.mod_lt _ (by decide)
  unfold inventory.delay inventory.randIntn inventory.Millisecond
  apply Nat.mod_eq_of_lt
  have : (50 + w.rand % 150) * 1000000 < 200 * 1000000 := by omega
  exact lt_trans this (by norm_num)

/-! ## A string written by the encoder is read back by the decoder -/

theorem hexVal_hexByte (k : Nat) (h : k < 16) : json.hexVal (json.hexByte k) = k := by
  interval_cases k <;> rfl

theorem isHex_hexByte (k : Nat) (h : k < 16) : json.isHex (json.hexByte k) = true := by
  interval_cases k <;> rfl

theorem decodeRune_two (n : Nat) (h1 : 0x80 ≤ n) (h2 : n < 0x800) (rest : List Nat) :
    json.decodeRune ((0xC0 + n / 0x40) :: (0x80 + n % 0x40) :: rest) = (Char.ofNat n, 2) := by
  have hs : json.runeSize (0xC0 + n / 0x40) = 2 := by
    unfold json.runeSize
    rw [if_pos]
    simp only [Bool.and_eq_true, decide_eq_true_eq]
    omega
  have hlo : json.acceptLo (0xC0 + n / 0x40) = 0x80 := by
    unfold json.acceptLo
    rw [if_neg, if_neg] <;> simp <;> omega
  have hhi : json.acceptHi (0xC0 + n / 0x40) = 0xBF := by
    unfold json.acceptHi
    rw [if_neg, if_neg] <;> simp <;> omega
  have hv : (0xC0 + n / 0x40) % 0x20 * 0x40 + (0x80 + n % 0x40) % 0x40 = n := by omega
  simp only [json.decodeRune, hs, hlo, hhi, hv]
  rw [if_neg (by omega), if_neg]
  · simp
  · simp
    omega

theorem decodeRune_three (n : Nat) (h1 : 0x800 ≤ n) (h2 : n < 0x10000)
    (hsur : n < 0xD800 ∨ 0xDFFF < n) (rest : List Nat) :
    json.decodeRune ((0xE0 + n / 0x1000) :: (0x80 + n / 0x40 % 0x40) :: (0x80 + n % 0x40) :: rest)
      = (Char.ofNat n, 3) := by
  have hs : json.runeSize (0xE0 + n / 0x1000) = 3 := by
    unfold json.runeSize
    rw [if_neg, if_pos]
    · simp only [Bool.and_eq_true, decide_eq_true_eq]
      omega
    · simp only [Bool.and_eq_true, decide_eq_true_eq]
      omega
  have hlo : json.acceptLo (0xE0 + n / 0x1000) ≤ 0x80 + n / 0x40 % 0x40 := by
    unfold json.acceptLo
    by_cases h : n / 0x1000 = 0
    · rw [if_pos (by simp; omega)]
      omega
    · rw [if_neg (by simp; omega), if_neg (by simp; omega)]
      omega
  have hhi : 0x80 + n / 0x40 % 0x40 ≤ json.acceptHi (0xE0 + n / 0x1000) := by
    unfold json.acceptHi
    by_cases h : n / 0x1000 = 0xD
    · rw [if_pos (by simp; omega)]
      omega
    · rw [if_neg (by simp; omega), if_neg (by simp; omega)]
      omega
  have hc : json.isCont (0x80 + n % 0x40) = true := by
    simp [json.isCont]
    omega
  have hv : (0xE0 + n / 0x1000) % 0x10 * 0x1000 + (0x80 + n / 0x40 % 0x40) % 0x40 * 0x40
      + (0x80 + n % 0x40) % 0x40 = n := by omega
  simp only [json.decodeRune, hs, hc, hv]
  rw [if_neg (by omega), if_neg]
  · simp
  · simp
    omega

theorem decodeRune_four (n : Nat) (h1 : 0x10000 ≤ n) (h2 : n < 0x110000) (rest : List Nat) :
    json.decodeRune ((0xF0 + n / 0x40000) :: (0x80 + n / 0x1000 % 0x40)
      :: (0x80 + n / 0x40 % 0x40) :: (0x80 + n % 0x40) :: rest) = (Char.ofNat n, 4) := by
  have hs : json.runeSize (0xF0 + n / 0x40000) = 4 := by
    unfold json.runeSize
    rw [if_neg, if_neg, if_pos]
    · simp only [Bool.and_eq_true, decide_eq_true_eq]
      omega
    · simp only [Bool.and_eq_true, decide_eq_true_eq]
      omega
    · simp only [Bool.and_eq_true, decide_eq_true_eq]
      omega
  have hlo : json.acceptLo (0xF0 + n / 0x40000) ≤ 0x80 + n / 0x1000 % 0x40 := by
    unfold json.acceptLo
    by_cases h : n / 0x40000 = 0
    · rw [if_neg (by simp; omega), if_pos (by simp; omega)]
      omega
    · rw [if_neg (by simp; omega), if_neg (by simp; omega)]
      omega
  have hhi : 0x80 + n / 0x1000 % 0x40 ≤ json.acceptHi (0xF0 + n / 0x40000) := by
    unfold json.acceptHi
    by_cases h : n / 0x40000 = 4
    · rw [if_neg (by simp; omega), if_pos (by simp; omega)]
      omega
    · rw [if_neg (by simp; omega), if_neg (by simp; omega)]
      omega
  have hc2 : json.isCont (0x80 + n / 0x40 % 0x40) = true := by
    simp [json.isCont]
    omega
  have hc3 : json.isCont (0x80 + n % 0x40) = true := by
    simp [json.isCont]
    omega
  have hv : (0xF0 + n / 0x40000) % 0x08 * 0x40000 + (0x80 + n / 0x1000 % 0x40) % 0x40 * 0x1000
      + (0x80 + n / 0x40 % 0x40) % 0x40 * 0x40 + (0x80 + n % 0x40) % 0x40 = n := by omega
  simp only [json.decodeRune, hs, hc2, hc3, hv]
  rw [if_neg (by omega), if_neg]
  · simp
  · simp
    omega

/-- One round of the loop of `unquoteBytes` reads back the rune `appendString`
wrote, and exactly the bytes written for it. -/
theorem unquoteStep_appendRune (c : Char) (rest : List Nat) :
    ∃ b pre, json.appendRune c = b :: pre ∧
      json.unquoteStep (b :: (pre ++ rest)) = (c, pre.length + 1) := by
  obtain ⟨n, hn⟩ : ∃ n, c.toNat = n := ⟨_, rfl⟩
  have hc : c = Char.ofNat n := by rw [← hn, Char.ofNat_toNat]
  have hvalid : n < 0xD800 ∨ (0xDFFF < n ∧ n < 0x110000) := by
    rw [← hn]
    exact c.valid
  simp only [json.appendRune, encodeRune, hn]
  rw [hc]
  by_cases e1 : n = 0x22
  · subst e1
    exact ⟨_, _, rfl, rfl⟩
  by_cases e2 : n = 0x5C
  · subst e2
    exact ⟨_, _, rfl, rfl⟩
  by_cases e3 : n = 0x08
  · subst e3
    exact ⟨_, _, rfl, rfl⟩
  by_cases e4 : n = 0x0C
  · subst e4
    exact ⟨_, _, rfl, rfl⟩
  by_cases e5 : n = 0x0A
  · subst e5
    exact ⟨_, _, rfl, rfl⟩
  by_cases e6 : n = 0x0D
  · subst e6
    exact ⟨_, _, rfl, rfl⟩
  by_cases e7 : n = 0x09
  · subst e7
    exact ⟨_, _, rfl, rfl⟩
  rw [if_neg (by simp [e1, e2]), if_neg (by simp [e3]), if_neg (by simp [e4]),
    if_neg (by simp [e5]), if_neg (by simp [e6]), if_neg (by simp [e7])]
  by_cases e8 : n < 0x20 ∨ n = 0x3C ∨ n = 0x3E ∨ n = 0x26
  · rw [if_pos (by simp; omega)]
    refine ⟨_, _, rfl, ?_⟩
    have hlt : n < 0x80 := by omega
    have h1 := hexVal_hexByte (n / 16) (by omega)
    have h2 := hexVal_hexByte (n % 16) (by omega)
    have hg : json.getu4 0x30 0x30 (json.hexByte (n / 16)) (json.hexByte (n % 16)) = n := by
      unfold json.getu4
      rw [h1, h2]
      have : json.hexVal 0x30 = 0 := rfl
      rw [this]
      omega
    have hs : json.isSurrogate n = false := by
      simp [json.isSurrogate]
      omega
    simp [json.unquoteStep, json.unquoteU, hg, hs]
  rw [if_neg (by simp; omega)]
  by_cases e9 : n = 0x2028
  · subst e9
    exact ⟨_, _, rfl, rfl⟩
  by_cases e10 : n = 0x2029
  · subst e10
    exact ⟨_, _, rfl, rfl⟩
  rw [if_neg (by simp [e9, e10])]
  by_cases a1 : n < 0x80
  · rw [if_pos a1]
    refine ⟨_, _, rfl, ?_⟩
    simp [json.unquoteStep, e2, a1]
  rw [if_neg a1]
  by_cases a2 : n < 0x800
  · rw [if_pos a2]
    refine ⟨_, _, rfl, ?_⟩
    have hd := decodeRune_two n (by omega) a2 rest
    have hb : ¬ (0xC0 + n / 0x40 = 0x5C) := by omega
    have hb2 : ¬ (0xC0 + n / 0x40 < 0x80) := by omega
    simp only [json.unquoteStep, List.cons_append, List.nil_append, List.length_cons,
      List.length_nil]
    rw [if_neg (by simpa using hb), if_neg hb2, hd]
  rw [if_neg a2]
  by_cases a3 : n < 0x10000
  · rw [if_pos a3]
    refine ⟨_, _, rfl, ?_⟩
    have hd := decodeRune_three n (by omega) a3 (by omega) rest
    have hb : ¬ (0xE0 + n / 0x1000 = 0x5C) := by omega
    have hb2 : ¬ (0xE0 + n / 0x1000 < 0x80) := by omega
    simp only [json.unquoteStep, List.cons_append, List.nil_append, List.length_cons,
      List.length_nil]
    rw [if_neg (by simpa using hb), if_neg hb2, hd]
  rw [if_neg a3]
  refine ⟨_, _, rfl, ?_⟩
  have hd := decodeRune_four n (by omega) (by omega) rest
  have hb : ¬ (0xF0 + n / 0x40000 = 0x5C) := by omega
  have hb2 : ¬ (0xF0 + n / 0x40000 < 0x80) := by omega
  simp only [json.unquoteStep, List.cons_append, List.nil_append, List.length_cons,
    List.length_nil]
  rw [if_neg (by simpa using hb), if_neg hb2, hd]

theorem unquoteRunes_skip (pre rest : List Nat) :
    json.unquoteRunes pre.length (pre ++ rest) = json.unquoteRunes 0 rest := by
  induction pre with
  | nil => rfl
  | cons b pre ih => simpa [json.unquoteRunes] using ih

/-- The loop of `unquoteBytes` reads back the runes `appendString` wrote. -/
theorem unquoteRunes_appendRunes (cs : List Char) :
    json.unquoteRunes 0 (json.appendRunes cs) = cs := by
  induction cs with
  | nil => rfl
  | cons c cs ih =>
    obtain ⟨b, pre, hb, hstep⟩ := unquoteStep_appendRune c (json.appendRunes cs)
    simp only [json.appendRunes, hb, List.cons_append, json.unquoteRunes, hstep,
      Nat.add_sub_cancel]
    rw [unquoteRunes_skip, ih]

/-- The function `unquote` reads back the string `appendString` wrote. -/
theorem unquote_appendString (s : String) : json.unquote (json.appendString s) = s := by
  unfold json.unquote json.appendString
  have h : ([0x22] ++ json.appendRunes s.data ++ [0x22]).tail.dropLast = json.appendRunes s.data := by
    simp
  rw [h, unquoteRunes_appendRunes]

/-- Inside a string literal, the scanner and the decoder pass over bytes that
are neither the quote nor the backslash nor control characters: the scanner
stays as it is and the decoder adds the bytes to the literal. -/
theorem loops_plain (et : Bool) (ps : List json.ParseState) (er : Option String)
    (st : List json.Frame) (v : Option json.Value) (bs : List Nat)
    (h : ∀ b ∈ bs, b ≠ 0x22 ∧ b ≠ 0x5C ∧ 0x20 ≤ b) (rest : List Nat) (acc : List Nat) :
    json.checkValidLoop ⟨.stateInString, et, ps, er⟩ (bs ++ rest)
      = json.checkValidLoop ⟨.stateInString, et, ps, er⟩ rest ∧
    json.decodeLoop ⟨.stateInString, et, ps, er⟩ ⟨some acc, st, v⟩ (bs ++ rest)
      = json.decodeLoop ⟨.stateInString, et, ps, er⟩ ⟨some (bs.reverse ++ acc), st, v⟩ rest := by
  induction bs generalizing acc with
  | nil => exact ⟨rfl, rfl⟩
  | cons b bs ih =>
    obtain ⟨h1, h2, h3⟩ := h b (List.mem_cons_self _ _)
    have hstep : json.scanner.stepFn ⟨.stateInString, et, ps, er⟩ b
        = (⟨.stateInString, et, ps, er⟩, .scanContinue) := by
      simp [json.scanner.stepFn, json.stateInString, h1, h2]
      omega
    obtain ⟨ih1, ih2⟩ := ih (fun x hx => h x (List.mem_cons_of_mem _ hx)) (b :: acc)
    constructor
    · simp only [List.cons_append, json.checkValidLoop, hstep]
      simpa using ih1
    · simp only [List.cons_append, json.decodeLoop, hstep, json.decodeState.step]
      simpa using ih2

/-- Inside a string literal, the scanner and the decoder pass over a
one-letter escape. -/
theorem loops_escape (et : Bool) (ps : List json.ParseState) (er : Option String)
    (st : List json.Frame) (v : Option json.Value) (e : Nat)
    (he : e = 0x22 ∨ e = 0x5C ∨ e = 0x62 ∨ e = 0x66 ∨ e = 0x6E ∨ e = 0x72 ∨ e = 0x74)
    (rest : List Nat) (acc : List Nat) :
    json.checkValidLoop ⟨.stateInString, et, ps, er⟩ ([0x5C, e] ++ rest)
      = json.checkValidLoop ⟨.stateInString, et, ps, er⟩ rest ∧
    json.decodeLoop ⟨.stateInString, et, ps, er⟩ ⟨some acc, st, v⟩ ([0x5C, e] ++ rest)
      = json.decodeLoop ⟨.stateInString, et, ps, er⟩ ⟨some ([0x5C, e].reverse ++ acc), st, v⟩
          rest := by
  rcases he with h | h | h | h | h | h | h <;> subst h <;> exact ⟨rfl, rfl⟩

/-- Inside a string literal, the scanner and the decoder pass over a `\u`
escape. -/
theorem loops_escapeU (et : Bool) (ps : List json.ParseState) (er : Option String)
    (st : List json.Frame) (v : Option json.Value) (h1 h2 h3 h4 : Nat)
    (x1 : json.isHex h1 = true) (x2 : json.isHex h2 = true) (x3 : json.isHex h3 = true)
    (x4 : json.isHex h4 = true) (rest : List Nat) (acc : List Nat) :
    json.checkValidLoop ⟨.stateInString, et, ps, er⟩ ([0x5C, 0x75, h1, h2, h3, h4] ++ rest)
      = json.checkValidLoop ⟨.stateInString, et, ps, er⟩ rest ∧
    json.decodeLoop ⟨.stateInString, et, ps, er⟩ ⟨some acc, st, v⟩
        ([0x5C, 0x75, h1, h2, h3, h4] ++ rest)
      = json.decodeLoop ⟨.stateInString, et, ps, er⟩
          ⟨some ([0x5C, 0x75, h1, h2, h3, h4].reverse ++ acc), st, v⟩ rest := by
  constructor
  · simp [json.checkValidLoop, json.scanner.stepFn, json.stateInString, json.stateInStringEsc,
      json.stateInStringEscHex, json.scanner.goto, x1, x2, x3, x4]
  · simp [json.decodeLoop, json.scanner.stepFn, json.stateInString, json.stateInStringEsc,
      json.stateInStringEscHex, json.scanner.goto, json.decodeState.step, x1, x2, x3, x4]

/-- Inside a string literal, the scanner and the decoder pass over what
`appendString` writes for one rune. -/
theorem loops_appendRune (et : Bool) (ps : List json.ParseState) (er : Option String)
    (st : List json.Frame) (v : Option json.Value) (c : Char) (rest : List Nat)
    (acc : List Nat) :
    json.checkValidLoop ⟨.stateInString, et, ps, er⟩ (json.appendRune c ++ rest)
      = json.checkValidLoop ⟨.stateInString, et, ps, er⟩ rest ∧
    json.decodeLoop ⟨.stateInString, et, ps, er⟩ ⟨some acc, st, v⟩ (json.appendRune c ++ rest)
      = json.decodeLoop ⟨.stateInString, et, ps, er⟩
          ⟨some ((json.appendRune c).reverse ++ acc), st, v⟩ rest := by
  obtain ⟨n, hn⟩ : ∃ n, c.toNat = n := ⟨_, rfl⟩
  have hvalid : n < 0xD800 ∨ (0xDFFF < n ∧ n < 0x110000) := by
    rw [← hn]
    exact c.valid
  simp only [json.appendRune, encodeRune, hn]
  by_cases e1 : n = 0x22 ∨ n = 0x5C
  · rw [if_pos (by simpa using e1)]
    exact loops_escape et ps er st v n (by omega) rest acc
  rw [if_neg (by simpa using e1)]
  by_cases e3 : n = 0x08
  · rw [if_pos (by simpa using e3)]
    exact loops_escape et ps er st v _ (by decide) rest acc
  rw [if_neg (by simpa using e3)]
  by_cases e4 : n = 0x0C
  · rw [if_pos (by simpa using e4)]
    exact loops_escape et ps er st v _ (by decide) rest acc
  rw [if_neg (by simpa using e4)]
  by_cases e5 : n = 0x0A
  · rw [if_pos (by simpa using e5)]
    exact loops_escape et ps er st v _ (by decide) rest acc
  rw [if_neg (by simpa using e5)]
  by_cases e6 : n = 0x0D
  · rw [if_pos (by simpa using e6)]
    exact loops_escape et ps er st v _ (by decide) rest acc
  rw [if_neg (by simpa using e6)]
  by_cases e7 : n = 0x09
  · rw [if_pos (by simpa using e7)]
    exact loops_escape et ps er st v _ (by decide) rest acc
  rw [if_neg (by simpa using e7)]
  by_cases e8 : n < 0x20 ∨ n = 0x3C ∨ n = 0x3E ∨ n = 0x26
  · rw [if_pos (by simp; omega)]
    exact loops_escapeU et ps er st v 0x30 0x30 (json.hexByte (n / 16)) (json.hexByte (n % 16))
      rfl rfl (isHex_hexByte _ (by omega)) (isHex_hexByte _ (by omega)) rest acc
  rw [if_neg (by simp; omega)]
  by_cases e9 : n = 0x2028 ∨ n = 0x2029
  · rw [if_pos (by simpa using e9)]
    exact loops_escapeU et ps er st v 0x32 0x30 0x32 (json.hexByte (n % 16))
      rfl rfl rfl (isHex_hexByte _ (by omega)) rest acc
  rw [if_neg (by simpa using e9)]
  apply loops_plain
  intro b hb
  by_cases a1 : n < 0x80
  · rw [if_pos a1] at hb
    simp at hb
    omega
  rw [if_neg a1] at hb
  by_cases a2 : n < 0x800
  · rw [if_pos a2] at hb
    simp at hb
    omega
  rw [if_neg a2] at hb
  by_cases a3 : n < 0x10000
  · rw [if_pos a3] at hb
    simp at hb
    omega
  rw [if_neg a3] at hb
  simp at hb
  omega

/-- Inside a string literal, the scanner and the decoder pass over the runes
`appendString` writes. -/
theorem loops_appendRunes (et : Bool) (ps : List json.ParseState) (er : Option String)
    (st : List json.Frame) (v : Option json.Value) (cs : List Char) (rest : List Nat)
    (acc : List Nat) :
    json.checkValidLoop ⟨.stateInString, et, ps, er⟩ (json.appendRunes cs ++ rest)
      = json.checkValidLoop ⟨.stateInString, et, ps, er⟩ rest ∧
    json.decodeLoop ⟨.stateInString, et, ps, er⟩ ⟨some acc, st, v⟩ (json.appendRunes cs ++ rest)
      = json.decodeLoop ⟨.stateInString, et, ps, er⟩
          ⟨some ((json.appendRunes cs).reverse ++ acc), st, v⟩ rest := by
  induction cs generalizing acc with
  | nil => exact ⟨rfl, rfl⟩
  | cons c cs ih =>
    obtain ⟨h1, h2⟩ := loops_appendRune et ps er st v c (json.appendRunes cs ++ rest) acc
    obtain ⟨i1, i2⟩ := ih ((json.appendRune c).reverse ++ acc)
    simp only [json.appendRunes, List.append_assoc, List.reverse_append]
    exact ⟨h1.trans i1, h2.trans i2⟩

/-- The bytes `handleCheck` writes for an order identifier: fixed bytes around
the identifier as `appendString` writes it. -/
theorem encodeResult_eq (oid : String) :
    inventory.encodeResult oid true "All items available"
      = utf8 "\x7b\"in_stock\":true,\"message\":\"All items available\",\"order_id\":"
        ++ (0x22 :: (json.appendRunes oid.data ++ [0x22, 0x7D, 0x0A])) := by
  simp only [inventory.encodeResult, json.appendString, List.append_assoc, if_true]
  rfl

/-- The response body of `handleCheck` is valid JSON, and the decoder reads
from it the three members the handler put in. -/
theorem decode_encodeResult (oid : String) :
    json.checkValid (inventory.encodeResult oid true "All items available") = none ∧
    json.decodeValue (inventory.encodeResult oid true "All items available")
      = .object [("in_stock", .bool true), ("message", .string "All items available"),
          ("order_id", .string oid)] := by
  rw [encodeResult_eq]
  obtain ⟨h1, h2⟩ := loops_appendRunes false [.parseObjectValue] none
    [.object [("in_stock", .bool true), ("message", .string "All items available")]
      (some "order_id")] none oid.data [0x22, 0x7D, 0x0A] [0x22]
  have hlit : json.literalValue (0x22 :: (json.appendRunes oid.data ++ [0x22])) = .string oid := by
    have := unquote_appendString oid
    simp only [json.appendString, List.singleton_append, List.cons_append,
      List.nil_append] at this
    simp [json.literalValue, this]
  constructor
  · have hp : json.checkValidLoop json.scanner.reset
        (utf8 "\x7b\"in_stock\":true,\"message\":\"All items available\",\"order_id\":"
          ++ (0x22 :: (json.appendRunes oid.data ++ [0x22, 0x7D, 0x0A])))
        = json.checkValidLoop ⟨.stateInString, false, [.parseObjectValue], none⟩
            (json.appendRunes oid.data ++ [0x22, 0x7D, 0x0A]) := rfl
    unfold json.checkValid
    rw [hp, h1]
    rfl
  · have hp : json.decodeLoop json.scanner.reset json.decodeState.init
        (utf8 "\x7b\"in_stock\":true,\"message\":\"All items available\",\"order_id\":"
          ++ (0x22 :: (json.appendRunes oid.data ++ [0x22, 0x7D, 0x0A])))
        = json.decodeLoop ⟨.stateInString, false, [.parseObjectValue], none⟩
            ⟨some [0x22],
              [.object [("in_stock", .bool true), ("message", .string "All items available")]
                (some "order_id")], none⟩
            (json.appendRunes oid.data ++ [0x22, 0x7D, 0x0A]) := rfl
    unfold json.decodeValue
    rw [hp, h2]
    simp [json.decodeLoop, json.scanner.stepFn, json.stateInString, json.stateEndValue,
      json.stateEndTop, json.scanner.goto, json.scanner.popParseState, json.isSpace,
      json.decodeState.step, json.decodeState.endLiteral, json.decodeState.close,
      json.decodeState.store, hlit]

/-! ## The trace context survives the hop -/

theorem lowerHexVal_hexDigit (k : Nat) (h : k < 16) :
    propagation.lowerHexVal (trace.hexDigit k) = some k := by
  interval_cases k <;> rfl

theorem hexDigit_ne_hyphen (k : Nat) (h : k < 16) : trace.hexDigit k ≠ Char.ofNat 0x2D := by
  interval_cases k <;> decide

theorem hexString_length (w n : Nat) : (trace.hexString w n).length = w := by
  induction w generalizing n with
  | zero => rfl
  | succ w ih => simp [trace.hexString, ih]

theorem hexString_no_hyphen (w n : Nat) : ∀ c ∈ trace.hexString w n, c ≠ Char.ofNat 0x2D := by
  induction w generalizing n with
  | zero => intro c hc; cases hc
  | succ w ih =>
    intro c hc
    simp only [trace.hexString, List.mem_append, List.mem_singleton] at hc
    rcases hc with hc | hc
    · exact ih _ c hc
    · rw [hc]
      exact hexDigit_ne_hyphen _ (Nat.mod_lt _ (by decide))

theorem parseHex_append (acc : Nat) (l1 l2 : List Char) :
    propagation.parseHex acc (l1 ++ l2)
      = match propagation.parseHex acc l1 with
        | some a => propagation.parseHex a l2
        | none => none := by
  induction l1 generalizing acc with
  | nil => rfl
  | cons c l1 ih =>
    simp only [List.cons_append, propagation.parseHex]
    cases propagation.lowerHexVal c with
    | none => rfl
    | some d => exact ih _

/-- Parsing the hexadecimal digits written for a number gives the number
back, up to the width written. -/
theorem parseHex_hexString (w n acc : Nat) :
    propagation.parseHex acc (trace.hexString w n) = some (acc * 16 ^ w + n % 16 ^ w) := by
  induction w generalizing n acc with
  | zero => simp [trace.hexString, propagation.parseHex, Nat.mod_one]
  | succ w ih =>
    simp only [trace.hexString, parseHex_append, ih, propagation.parseHex,
      lowerHexVal_hexDigit _ (Nat.mod_lt n (by decide : 0 < 16))]
    congr 1
    have h1 : n % 16 ^ (w + 1) = 16 * (n / 16 % 16 ^ w) + n % 16 := by
      rw [pow_succ, mul_comm (16 ^ w) 16, Nat.mod_mul]
      omega
    rw [h1, pow_succ]
    ring

theorem cut_of_no_hyphen (l rest : List Char) (h : ∀ c ∈ l, c ≠ Char.ofNat 0x2D) :
    propagation.cut (l ++ Char.ofNat 0x2D :: rest) = (l, rest) := by
  induction l with
  | nil => simp [propagation.cut]
  | cons c l ih =>
    have hc : c ≠ Char.ofNat 0x2D := h c (List.mem_cons_self _ _)
    have ih' := ih (fun x hx => h x (List.mem_cons_of_mem _ hx))
    simp [propagation.cut, hc, ih']

theorem extractPart_hexString (w n : Nat) (rest : List Char) :
    propagation.extractPart (trace.hexString w n ++ Char.ofNat 0x2D :: rest) w
      = some (n % 16 ^ w, rest) := by
  unfold propagation.extractPart
  rw [cut_of_no_hyphen _ _ (hexString_no_hyphen w n)]
  simp [hexString_length, parseHex_hexString]

/-- Extracting from a carrier that holds the `traceparent` header written for
a valid span context gives its trace and span identifier and sampled flag
back. -/
theorem extract_of_traceparent (carrier : http.Header) (sc : trace.SpanContext)
    (hget : carrier.Get "traceparent" = propagation.traceparent sc)
    (hT : sc.traceID ≠ 0) (hT2 : sc.traceID < 2 ^ 128)
    (hS : sc.spanID ≠ 0) (hS2 : sc.spanID < 2 ^ 64) :
    propagation.extract carrier
      = { traceID := sc.traceID, spanID := sc.spanID, sampled := sc.sampled,
          traceState := carrier.Get "tracestate", remote := true } := by
  have h0 : ∀ rest : List Char,
      propagation.extractPart (Char.ofNat 0x30 :: Char.ofNat 0x30 :: Char.ofNat 0x2D :: rest) 2
        = some (0, rest) := by
    intro rest
    have := extractPart_hexString 2 0 rest
    simpa [trace.hexString, trace.hexDigit] using this
  have hdata : (propagation.traceparent sc).data
      = Char.ofNat 0x30 :: Char.ofNat 0x30 :: Char.ofNat 0x2D ::
        (trace.hexString 32 sc.traceID ++ Char.ofNat 0x2D ::
          (trace.hexString 16 sc.spanID ++ Char.ofNat 0x2D ::
            (if sc.sampled then "01" else "00").data)) := by
    simp [propagation.traceparent]
  have hm1 : sc.traceID % 16 ^ 32 = sc.traceID := Nat.mod_eq_of_lt (by
    have : (16 : Nat) ^ 32 = 2 ^ 128 := by norm_num
    omega)
  have hm2 : sc.spanID % 16 ^ 16 = sc.spanID := Nat.mod_eq_of_lt (by
    have : (16 : Nat) ^ 16 = 2 ^ 64 := by norm_num
    omega)
  unfold propagation.extract
  simp only [hget, hdata, h0, extractPart_hexString, hm1, hm2]
  cases hs : sc.sampled <;>
    simp [propagation.extractPart, propagation.cut, propagation.parseHex,
      propagation.lowerHexVal, trace.SpanContext.IsValid, hT, hS]

theorem find_filter_append (h : List (String × String)) (ck ck1 v : String) :
    (h.filter (fun kv => kv.1 != ck) ++ [(ck, v)]).find? (fun kv => kv.1 == ck1)
      = if ck1 = ck then some (ck, v) else h.find? (fun kv => kv.1 == ck1) := by
  induction h with
  | nil =>
    by_cases hk : ck1 = ck
    · simp [hk]
    · have hk2 : ¬ (ck = ck1) := fun e => hk e.symm
      simp [hk, hk2]
  | cons kv h ih =>
    by_cases h1 : kv.1 = ck
    · have hf : List.filter (fun kv => kv.1 != ck) (kv :: h)
          = List.filter (fun kv => kv.1 != ck) h := by
        simp [List.filter_cons, h1]
      rw [hf, ih]
      by_cases hk : ck1 = ck
      · simp [hk]
      · have h2 : ¬ (kv.1 = ck1) := by
          rw [h1]
          exact fun e => hk e.symm
        simp [hk, List.find?_cons, h2]
    · have hf : List.filter (fun kv => kv.1 != ck) (kv :: h)
          = kv :: List.filter (fun kv => kv.1 != ck) h := by
        simp [List.filter_cons, h1]
      rw [hf, List.cons_append, List.find?_cons, List.find?_cons, ih]
      by_cases h2 : kv.1 = ck1
      · have hk : ¬ (ck1 = ck) := by
          rw [← h2]
          exact h1
        simp [h2, hk]
      · have hb : (kv.1 == ck1) = false := by simp [h2]
        simp only [hb]

/-- Reading a header after setting one: the value set for the same canonical
key, the value held before for another. -/
theorem Header_Get_Set (h : http.Header) (k v k1 : String) :
    (http.Header.Set h k v).Get k1
      = if http.CanonicalHeaderKey k1 = http.CanonicalHeaderKey k then v else h.Get k1 := by
  unfold http.Header.Get http.Header.Set
  rw [find_filter_append]
  by_cases hk : http.CanonicalHeaderKey k1 = http.CanonicalHeaderKey k
  · simp [hk]
  · simp [hk]

theorem parseHex_lt (l : List Char) (acc v : Nat) (h : propagation.parseHex acc l = some v) :
    v < (acc + 1) * 16 ^ l.length := by
  induction l generalizing acc with
  | nil =>
    simp [propagation.parseHex] at h
    subst h
    simp
  | cons c l ih =>
    simp only [propagation.parseHex] at h
    cases hd : propagation.lowerHexVal c with
    | none => simp [hd] at h
    | some d =>
      simp only [hd] at h
      have hd16 : d < 16 := by
        unfold propagation.lowerHexVal at hd
        split_ifs at hd with a b
        · simp at a hd
          omega
        · simp at b hd
          omega
      have := ih _ h
      calc v < (acc * 16 + d + 1) * 16 ^ l.length := this
        _ ≤ ((acc + 1) * 16) * 16 ^ l.length := Nat.mul_le_mul_right _ (by omega)
        _ = (acc + 1) * 16 ^ (l.length + 1) := by rw [pow_succ]; ring

theorem extractPart_lt (h : List Char) (n v : Nat) (rest : List Char)
    (hp : propagation.extractPart h n = some (v, rest)) : v < 16 ^ n := by
  unfold propagation.extractPart at hp
  by_cases hl : (propagation.cut h).1.length = n
  · rw [if_neg (by simpa using hl)] at hp
    cases hv : propagation.parseHex 0 (propagation.cut h).1 with
    | none => simp [hv] at hp
    | some u =>
      simp only [hv, Option.some.injEq, Prod.mk.injEq] at hp
      have := parseHex_lt _ 0 u hv
      rw [hl] at this
      omega
  · rw [if_pos (by simpa using hl)] at hp
    cases hp

/-- The trace identifier `extract` reads fits 16 bytes. -/
theorem extract_traceID_lt (carrier : http.Header) :
    (propagation.extract carrier).traceID < 2 ^ 128 := by
  have hz : trace.SpanContext.empty.traceID < 2 ^ 128 := by decide
  have e : (16 : Nat) ^ 32 = 2 ^ 128 := by norm_num
  unfold propagation.extract
  simp only []
  by_cases h1 : (carrier.Get "traceparent").data.isEmpty = true
  · rw [if_pos h1]
    exact hz
  rw [if_neg h1]
  cases e1 : propagation.extractPart (carrier.Get "traceparent").data 2 with
  | none => exact hz
  | some p1 =>
    obtain ⟨version, r1⟩ := p1
    simp only []
    by_cases h2 : version > 254
    · rw [if_pos h2]
      exact hz
    rw [if_neg h2]
    cases e2 : propagation.extractPart r1 32 with
    | none => exact hz
    | some p2 =>
      obtain ⟨traceID, r2⟩ := p2
      have hlt := extractPart_lt r1 32 traceID r2 e2
      simp only []
      cases e3 : propagation.extractPart r2 16 with
      | none => exact hz
      | some p3 =>
        obtain ⟨spanID, r3⟩ := p3
        simp only []
        cases e4 : propagation.extractPart r3 2 with
        | none => exact hz
        | some p4 =>
          obtain ⟨opts, r4⟩ := p4
          simp only []
          split_ifs
          · exact hz
          · show traceID < 2 ^ 128
            omega
          · exact hz

theorem BaggageExtract_span (parse : String → Option String) (ctx : Context)
    (carrier : http.Header) : (propagation.BaggageExtract parse ctx carrier).span = ctx.span := by
  unfold propagation.BaggageExtract
  split_ifs
  · rfl
  · cases parse (carrier.Get "baggage") <;> rfl

/-- The propagator extracts the span context of a valid `traceparent`
header. -/
theorem Extract_span_of_valid (parse : String → Option String) (ctx : Context)
    (carrier : http.Header) (h : (propagation.extract carrier).IsValid = true) :
    (propagation.Extract parse ctx carrier).span = propagation.extract carrier := by
  unfold propagation.Extract
  rw [BaggageExtract_span]
  unfold propagation.TraceContextExtract
  rw [if_pos h]

/-- A span started under a valid span context is in its trace, is sampled,
and has a non-zero span identifier of 8 bytes. -/
theorem Start_of_valid (ids : IDs) (ctx : Context) (h : ctx.span.IsValid = true) :
    (sdktrace.Start ids ctx).span.traceID = ctx.span.traceID ∧
    (sdktrace.Start ids ctx).span.spanID ≠ 0 ∧
    (sdktrace.Start ids ctx).span.spanID < 2 ^ 64 ∧
    (sdktrace.Start ids ctx).span.sampled = true ∧
    (sdktrace.Start ids ctx).span.IsValid = true := by
  have hT : ctx.span.traceID ≠ 0 := by
    simp [trace.SpanContext.IsValid] at h
    exact h.1
  have hlt : ids.span % (2 ^ 64 - 1) < 2 ^ 64 - 1 := Nat.mod_lt _ (by norm_num)
  have e1 : (sdktrace.Start ids ctx).span.traceID = ctx.span.traceID := by
    simp [sdktrace.Start, h]
  have e2 : (sdktrace.Start ids ctx).span.spanID ≠ 0 := by
    simp [sdktrace.Start]
  refine ⟨e1, e2, ?_, rfl, ?_⟩
  · simp only [sdktrace.Start]
    omega
  · unfold trace.SpanContext.IsValid
    rw [e1]
    simp [hT, e2]

/-- The propagator injects the `traceparent` header of a valid span context. -/
theorem Inject_traceparent (ctx : Context) (carrier : http.Header)
    (h : ctx.span.IsValid = true) :
    (propagation.Inject ctx carrier).Get "traceparent" = propagation.traceparent ctx.span := by
  have hk : ¬ (http.CanonicalHeaderKey "traceparent" = http.CanonicalHeaderKey "baggage") := by
    decide!
  unfold propagation.Inject propagation.BaggageInject propagation.TraceContextInject
  simp only [h, Bool.not_true, Bool.false_eq_true, if_false]
  split_ifs <;> simp [Header_Get_Set, hk]

/-- The span the gateway's handler reads from its context continues the
trace of a valid `traceparent` header. -/
theorem gateway_span_of_valid (w : World) (raw : http.Request)
    (hvalid : (propagation.extract raw.Header).IsValid = true) :
    (otelhttp.NewHandler w raw).ctx.span.traceID = (propagation.extract raw.Header).traceID ∧
    (otelhttp.NewHandler w raw).ctx.span.IsValid = true := by
  have hs := Extract_span_of_valid w.parseBaggage raw.ctx raw.Header hvalid
  have hv : (propagation.Extract w.parseBaggage raw.ctx raw.Header).span.IsValid = true := by
    rw [hs]
    exact hvalid
  obtain ⟨h1, _, _, _, h5⟩ := Start_of_valid w.serverIDs _ hv
  exact ⟨by rw [← hs]; exact h1, h5⟩

/-- A request sent with a context whose span is valid arrives with a
`traceparent` header from which the receiving `otelhttp` handler starts a span
in the same trace. -/
theorem downstream_span_of_valid (wg wd : World) (req : http.Request)
    (hvalid : req.ctx.span.IsValid = true) (hlt : req.ctx.span.traceID < 2 ^ 128) :
    (propagation.extract (otelhttp.NewTransport wg req).Header).traceID = req.ctx.span.traceID ∧
    (otelhttp.NewHandler wd (http.received (otelhttp.NewTransport wg req))).ctx.span.traceID
      = req.ctx.span.traceID := by
  obtain ⟨c1, c2, c3, c4, c5⟩ := Start_of_valid wg.clientIDs req.ctx hvalid
  have hT : (sdktrace.Start wg.clientIDs req.ctx).span.traceID ≠ 0 := by
    rw [c1]
    simp [trace.SpanContext.IsValid] at hvalid
    exact hvalid.1
  have hget := Inject_traceparent (sdktrace.Start wg.clientIDs req.ctx) req.Header c5
  have hex := extract_of_traceparent
    (propagation.Inject (sdktrace.Start wg.clientIDs req.ctx) req.Header)
    (sdktrace.Start wg.clientIDs req.ctx).span hget hT (by rw [c1]; exact hlt) c2 c3
  have hwire : (otelhttp.NewTransport wg req).Header
      = propagation.Inject (sdktrace.Start wg.clientIDs req.ctx) req.Header := rfl
  have hex1 : (propagation.extract (otelhttp.NewTransport wg req).Header).traceID
      = req.ctx.span.traceID := by
    rw [hwire, hex]
    exact c1
  have hexv : (propagation.extract (otelhttp.NewTransport wg req).Header).IsValid = true := by
    rw [hwire, hex]
    simp [trace.SpanContext.IsValid, hT, c2]
  refine ⟨hex1, ?_⟩
  have := gateway_span_of_valid wd (http.received (otelhttp.NewTransport wg req)) hexv
  rw [this.1]
  exact hex1

/-! ## The claims -/

/-- C1: a request to `handleCreateOrder` whose body, read in full, is not
valid JSON is answered with status 400 and the body
`{"error":"invalid JSON"}` (followed by the newline `http.Error` writes),
which is itself the JSON document with the one member `error`; no request is
sent to the order service. -/
theorem C1_invalid_json_rejected (w : World) (r : http.Request)
    (hread : r.BodyErr = none) (hbad : json.Valid r.Body = false) :
    (http.respond (gateway.handleCreateOrder w r)).Code = 400 ∧
    (http.respond (gateway.handleCreateOrder w r)).Body
      = utf8 "\x7b\"error\":\"invalid JSON\"\x7d" ++ [0x0A] ∧
    json.decodeValue (http.respond (gateway.handleCreateOrder w r)).Body
      = .object [("error", .string "invalid JSON")] ∧
    sentRequests (gateway.handleCreateOrder w r) = [] := by
  obtain ⟨msg, hmsg⟩ := Unmarshal_of_invalid r.Body hbad
  rw [handleCreateOrder_of_error w r _ hread hmsg]
  refine ⟨rfl, rfl, ?_, rfl⟩
  have hb : (http.respond ([Event.log Level.Error "invalid JSON payload"
      (gateway.loggerArgs r ++ [("error", LogValue.jsonErr (json.Error.SyntaxError msg))])]
      ++ http.Error "\x7b\"error\":\"invalid JSON\"\x7d" http.StatusBadRequest
      ++ [Event.CloseRequestBody])).Body = utf8 "\x7b\"error\":\"invalid JSON\"\x7d" ++ [0x0A] := rfl
  rw [hb]
  rfl

/-- C1 at the body `customer=c1`, which is not JSON. -/
theorem C1_invalid_json_rejected_witness :
    (exampleRequest "customer=c1").BodyErr = none ∧
    json.Valid (exampleRequest "customer=c1").Body = false ∧
    (http.respond (gateway.handleCreateOrder exampleWorld (exampleRequest "customer=c1"))).Code
      = 400 ∧
    sentRequests (gateway.handleCreateOrder exampleWorld (exampleRequest "customer=c1")) = [] :=
  ⟨rfl, by decide!,
    (C1_invalid_json_rejected exampleWorld (exampleRequest "customer=c1") rfl (by decide!)).1,
    (C1_invalid_json_rejected exampleWorld (exampleRequest "customer=c1") rfl (by decide!)).2.2.2⟩

/-- C2, evaluated at bodies the code turns away: `["sku1"]` and
`{"qty":1e999}` are both valid JSON, yet `handleCreateOrder` answers each
with status 400 and the body `{"error":"invalid JSON"}`, and sends nothing
to the order service. -/
theorem C2_valid_json_rejected :
    json.Valid (exampleRequest "[\"sku1\"]").Body = true ∧
    (http.respond (gateway.handleCreateOrder exampleWorld (exampleRequest "[\"sku1\"]"))).Code
      = 400 ∧
    (http.respond (gateway.handleCreateOrder exampleWorld (exampleRequest "[\"sku1\"]"))).Body
      = utf8 "\x7b\"error\":\"invalid JSON\"\x7d" ++ [0x0A] ∧
    sentRequests (gateway.handleCreateOrder exampleWorld (exampleRequest "[\"sku1\"]")) = [] ∧
    json.Valid (exampleRequest "\x7b\"qty\":1e999\x7d").Body = true ∧
    (http.respond
      (gateway.handleCreateOrder exampleWorld (exampleRequest "\x7b\"qty\":1e999\x7d"))).Code
      = 400 ∧
    sentRequests (gateway.handleCreateOrder exampleWorld (exampleRequest "\x7b\"qty\":1e999\x7d"))
      = [] := by
  refine ⟨?_, ?_, ?_, ?_, ?_, ?_, ?_⟩ <;> decide!

/-- C3, refuted as stated, at two answers of the order service to the order
of the specification's scenario.  To the status line `HTTP/1.1 099 Odd` with
a body read in full the gateway sends no response: `WriteHeader` panics on
the code, no status and no body are written.  To status 302 with a
`Location` header and the body `moved` the gateway responds with status 200
and the body of the answer to the request the client sent next. -/
theorem C3_counterexample :
    oddStatusWorld.roundTrip (otelhttp.NewTransport oddStatusWorld
        (gateway.newRequest oddStatusWorld (exampleRequest exampleOrder).ctx
          (exampleRequest exampleOrder).Body))
      = .ok { StatusCode := 99, Header := [], Body := utf8 "\x7b\"order_id\":\"o1\"\x7d",
              BodyErr := none } ∧
    (http.respond (gateway.handleCreateOrder oddStatusWorld (exampleRequest exampleOrder))).panicked
      = true ∧
    (http.respond
      (gateway.handleCreateOrder oddStatusWorld (exampleRequest exampleOrder))).wroteHeader
      = false ∧
    (http.respond (gateway.handleCreateOrder oddStatusWorld (exampleRequest exampleOrder))).Body
      = [] ∧
    redirectWorld.roundTrip (otelhttp.NewTransport redirectWorld
        (gateway.newRequest redirectWorld (exampleRequest exampleOrder).ctx
          (exampleRequest exampleOrder).Body))
      = .ok { StatusCode := 302, Header := [("Location", "http://localhost:8081/v2/orders")],
              Body := utf8 "moved", BodyErr := none } ∧
    (http.respond (gateway.handleCreateOrder redirectWorld (exampleRequest exampleOrder))).Code
      = 200 ∧
    (http.respond (gateway.handleCreateOrder redirectWorld (exampleRequest exampleOrder))).Body
      = utf8 "\x7b\"orders\":[]\x7d" :=
  ⟨rfl, by decide!, by decide!, by decide!, rfl, by decide!, by decide!⟩

/-- C3 (amended): when `httpClient.Do` returns a response with a status code
`s` from 200 to 999 and a body `b` that is read in full (`b` empty when `s`
is 204 or 304, which allow no body), the gateway responds with status `s`
and body `b`, with content type `application/json`, and does not panic;
apart from the log line the run is the same whether `s` is below 400 or not.
The response `httpClient.Do` returns is the first response of the order
service unless that is a 301, 302, 303, 307 or 308 with a `Location` header,
which the client follows. -/
theorem C3_relays_final_response (w : World) (r : http.Request) (order : json.Map)
    (resp : http.Response)
    (hread : r.BodyErr = none) (hok : json.Unmarshal r.Body = .ok order)
    (hurl : w.parseURLError (gateway.orderServiceURL w ++ "/orders") = none)
    (hdo : gateway.httpClientDo w (gateway.newRequest w r.ctx r.Body) = .ok resp)
    (hbody : resp.BodyErr = none)
    (hlo : 200 ≤ resp.StatusCode) (hhi : resp.StatusCode ≤ 999)
    (hallowed : resp.Body = [] ∨ (resp.StatusCode ≠ 204 ∧ resp.StatusCode ≠ 304)) :
    (http.respond (gateway.handleCreateOrder w r)).Code = resp.StatusCode ∧
    (http.respond (gateway.handleCreateOrder w r)).Body = resp.Body ∧
    (http.respond (gateway.handleCreateOrder w r)).sent.Get "Content-Type" = "application/json" ∧
    (http.respond (gateway.handleCreateOrder w r)).panicked = false ∧
    withoutLogs (gateway.handleCreateOrder w r) =
      [ .SetAttributes
          [("order.customer", .String (fmt.Sprintv w.formatFloat (order.index "customer_id")))],
        .Do (gateway.newRequest w r.ctx r.Body),
        .HeaderSet "Content-Type" "application/json",
        .WriteHeader resp.StatusCode,
        .Write resp.Body,
        .CloseResponseBody,
        .CloseRequestBody ] ∧
    (∀ first,
      w.roundTrip (otelhttp.NewTransport w (gateway.newRequest w r.ctx r.Body)) = .ok first →
      (first.StatusCode ≠ 301 ∧ first.StatusCode ≠ 302 ∧ first.StatusCode ≠ 303 ∧
          first.StatusCode ≠ 307 ∧ first.StatusCode ≠ 308) ∨
        first.Header.Get "Location" = "" →
      resp = first) := by
  have hcode : http.checkWriteHeaderCode resp.StatusCode = true := by
    simp [http.checkWriteHeaderCode]
    omega
  have hrun := handleCreateOrder_of_relayed w r order resp hread hok hurl hdo hbody hcode
  have hline : (if resp.StatusCode ≥ 400 then
        Event.log .Error "order service returned error"
          (gateway.loggerArgs r ++ [("status", .int resp.StatusCode),
            ("response", .bytes resp.Body)])
      else
        Event.log .Info "order processed successfully"
          (gateway.loggerArgs r ++ [("status", .int resp.StatusCode)])).isLog = true := by
    by_cases h : resp.StatusCode ≥ 400 <;> simp [h, Event.isLog]
  have hres := respond_relayed
    [ .log .Info "received order request" (gateway.loggerArgs r ++ [("order", .map order)]),
      .SetAttributes
        [("order.customer", .String (fmt.Sprintv w.formatFloat (order.index "customer_id")))],
      .Do (gateway.newRequest w r.ctx r.Body) ]
    _ resp.StatusCode resp.Body rfl hline hlo hhi hallowed
  rw [hrun]
  refine ⟨hres.1, hres.2.1, ?_, hres.2.2.2, ?_, ?_⟩
  · have hs := hres.2.2.1
    simp only [List.cons_append, List.nil_append] at hs
    rw [hs]
    decide!
  · by_cases h : resp.StatusCode ≥ 400 <;> simp [withoutLogs, Event.isLog, h]
  · intro first hrt hfinal
    have hf : (http.redirectBehavior (gateway.newRequest w r.ctx r.Body).Method
        first.StatusCode).2.1 = false ∨ first.Header.Get "Location" = "" := by
      rcases hfinal with h | h
      · exact Or.inl (redirectBehavior_post_none first.StatusCode h)
      · exact Or.inr h
    have hd := (clientDo_of_final w (gateway.newRequest w r.ctx r.Body) first hrt hf).1
    rw [hdo] at hd
    exact Except.ok.inj hd

/-- C3 (amended) at the specification's scenario (status 200 and the
inventory result), at a downstream error (status 503), and at a redirect
the client follows, where the response relayed is the last one. -/
theorem C3_relays_final_response_witness :
    (http.respond (gateway.handleCreateOrder exampleWorld (exampleRequest exampleOrder))).Code
      = 200 ∧
    (http.respond (gateway.handleCreateOrder exampleWorld (exampleRequest exampleOrder))).Body
      = utf8 "\x7b\"order_id\":\"\",\"in_stock\":true,\"message\":\"All items available\"\x7d" ∧
    (http.respond (gateway.handleCreateOrder failingWorld (exampleRequest exampleOrder))).Code
      = 503 ∧
    (http.respond (gateway.handleCreateOrder failingWorld (exampleRequest exampleOrder))).Body
      = utf8 "\x7b\"error\":\"overloaded\"\x7d" ∧
    gateway.httpClientDo redirectWorld
        (gateway.newRequest redirectWorld (exampleRequest exampleOrder).ctx
          (exampleRequest exampleOrder).Body)
      = .ok { StatusCode := 200, Header := [], Body := utf8 "\x7b\"orders\":[]\x7d",
              BodyErr := none } ∧
    (http.respond (gateway.handleCreateOrder redirectWorld (exampleRequest exampleOrder))).Body
      = utf8 "\x7b\"orders\":[]\x7d" :=
  ⟨(C3_relays_final_response exampleWorld (exampleRequest exampleOrder)
      [("customer_id", .string "c1"), ("items", .array [.string "sku1"])]
      { StatusCode := 200, Header := [],
        Body := utf8 "\x7b\"order_id\":\"\",\"in_stock\":true,\"message\":\"All items available\"\x7d",
        BodyErr := none }
      rfl rfl rfl rfl rfl (by decide) (by decide) (Or.inr ⟨by decide, by decide⟩)).1,
   (C3_relays_final_response exampleWorld (exampleRequest exampleOrder)
      [("customer_id", .string "c1"), ("items", .array [.string "sku1"])]
      { StatusCode := 200, Header := [],
        Body := utf8 "\x7b\"order_id\":\"\",\"in_stock\":true,\"message\":\"All items available\"\x7d",
        BodyErr := none }
      rfl rfl rfl rfl rfl (by decide) (by decide) (Or.inr ⟨by decide, by decide⟩)).2.1,
   (C3_relays_final_response failingWorld (exampleRequest exampleOrder)
      [("customer_id", .string "c1"), ("items", .array [.string "sku1"])]
      { StatusCode := 503, Header := [], Body := utf8 "\x7b\"error\":\"overloaded\"\x7d",
        BodyErr := none }
      rfl rfl rfl rfl rfl (by decide) (by decide) (Or.inr ⟨by decide, by decide⟩)).1,
   (C3_relays_final_response failingWorld (exampleRequest exampleOrder)
      [("customer_id", .string "c1"), ("items", .array [.string "sku1"])]
      { StatusCode := 503, Header := [], Body := utf8 "\x7b\"error\":\"overloaded\"\x7d",
        BodyErr := none }
      rfl rfl rfl rfl rfl (by decide) (by decide) (Or.inr ⟨by decide, by decide⟩)).2.1,
   rfl,
   (C3_relays_final_response redirectWorld (exampleRequest exampleOrder)
      [("customer_id", .string "c1"), ("items", .array [.string "sku1"])]
      { StatusCode := 200, Header := [], Body := utf8 "\x7b\"orders\":[]\x7d", BodyErr := none }
      rfl rfl rfl rfl rfl (by decide) (by decide) (Or.inr ⟨by decide, by decide⟩)).2.1⟩

/-- C4: when `httpClient.Do` returns an error, whichever it is, the gateway
responds with status 502 and the fixed body
`{"error":"order service unavailable"}` (followed by the newline `http.Error`
writes), which is the JSON document with the one member `error`; the body
does not depend on the transport error. -/
theorem C4_transport_failure_fixed_502 (w : World) (r : http.Request) (order : json.Map)
    (e : String)
    (hread : r.BodyErr = none) (hok : json.Unmarshal r.Body = .ok order)
    (hurl : w.parseURLError (gateway.orderServiceURL w ++ "/orders") = none)
    (hdo : gateway.httpClientDo w (gateway.newRequest w r.ctx r.Body) = .error e) :
    (http.respond (gateway.handleCreateOrder w r)).Code = 502 ∧
    (http.respond (gateway.handleCreateOrder w r)).Body
      = utf8 "\x7b\"error\":\"order service unavailable\"\x7d" ++ [0x0A] ∧
    json.decodeValue (http.respond (gateway.handleCreateOrder w r)).Body
      = .object [("error", .string "order service unavailable")] := by
  have hrun : gateway.handleCreateOrder w r =
      [ .log .Info "received order request" (gateway.loggerArgs r ++ [("order", .map order)]),
        .SetAttributes
          [("order.customer", .String (fmt.Sprintv w.formatFloat (order.index "customer_id")))],
        .Do (gateway.newRequest w r.ctx r.Body),
        .log .Error "order service request failed" (gateway.loggerArgs r ++ [("error", .err e)]) ]
        ++ http.Error "\x7b\"error\":\"order service unavailable\"\x7d" http.StatusBadGateway
        ++ [.CloseRequestBody] := by
    rw [handleCreateOrder_of_ok w r order hread hok hurl, hdo]
    rfl
  have hbody : (http.respond (gateway.handleCreateOrder w r)).Body
      = utf8 "\x7b\"error\":\"order service unavailable\"\x7d" ++ [0x0A] := by
    rw [hrun]; rfl
  refine ⟨by rw [hrun]; rfl, hbody, ?_⟩
  rw [hbody]
  rfl

/-- C4 with an order service that cannot be reached. -/
theorem C4_transport_failure_fixed_502_witness :
    gateway.httpClientDo unreachableWorld
      (gateway.newRequest unreachableWorld (exampleRequest exampleOrder).ctx
        (exampleRequest exampleOrder).Body)
      = .error "dial tcp: lookup orders.invalid: no such host" ∧
    (http.respond (gateway.handleCreateOrder unreachableWorld (exampleRequest exampleOrder))).Code
      = 502 ∧
    (http.respond (gateway.handleCreateOrder unreachableWorld (exampleRequest exampleOrder))).Body
      = utf8 "\x7b\"error\":\"order service unavailable\"\x7d" ++ [0x0A] :=
  ⟨rfl,
   (C4_transport_failure_fixed_502 unreachableWorld (exampleRequest exampleOrder)
      [("customer_id", .string "c1"), ("items", .array [.string "sku1"])]
      "dial tcp: lookup orders.invalid: no such host" rfl rfl rfl rfl).1,
   (C4_transport_failure_fixed_502 unreachableWorld (exampleRequest exampleOrder)
      [("customer_id", .string "c1"), ("items", .array [.string "sku1"])]
      "dial tcp: lookup orders.invalid: no such host" rfl rfl rfl rfl).2.1⟩

/-- C5, refuted as stated.  The body `"order-17"`, a JSON string, is valid
JSON and the gateway sends no request for it.  For the order of the
specification's scenario, when the order service answers the POST with
status 302 and a `Location` header, two requests go to the order service:
the POST with the body, and then a GET without body to the URL the header
names. -/
theorem C5_counterexample :
    json.Valid (exampleRequest "\"order-17\"").Body = true ∧
    sentRequests (gateway.handleCreateOrder exampleWorld (exampleRequest "\"order-17\"")) = [] ∧
    json.Valid (exampleRequest exampleOrder).Body = true ∧
    sentRequests (gateway.handleCreateOrder redirectWorld (exampleRequest exampleOrder))
      = [gateway.newRequest redirectWorld (exampleRequest exampleOrder).ctx
          (exampleRequest exampleOrder).Body] ∧
    (gateway.wireRequests redirectWorld
        (gateway.newRequest redirectWorld (exampleRequest exampleOrder).ctx
          (exampleRequest exampleOrder).Body)).map (fun q => (q.Method, q.URL, q.Body))
      = [("POST", "http://localhost:8081/orders", utf8 exampleOrder),
         ("GET", "http://localhost:8081/v2/orders", [])] := by
  refine ⟨?_, ?_, ?_, ?_, ?_⟩ <;> decide!

/-- C5 (amended): for a request whose body, read in full, is `null` or a
valid JSON object whose numbers fit a float64, and with a URL of the order
service that parses, the gateway passes one request to `httpClient.Do`: a
POST whose body is the bytes of the request body, whose URL is
`ORDER_SERVICE_URL` followed by `/orders`, with `http://localhost:8081` for
an unset or empty variable, whose content type is `application/json` and
whose context is the context of the request handled.  It is the first
request on the wire, and the otelhttp transport changes none of method, URL
and body.  It is the only one when the transport fails or the response is
no 301, 302, 303, 307 or 308 with a `Location` header; after a 301, 302 or
303 with a `Location` header the client sends a GET without body to the URL
the header names, and after a 307 or 308 a POST with the same body.
Whatever the body of a request, `handleCreateOrder` passes nothing to
`httpClient.Do` or the one request built this way. -/
theorem C5_forwarded_request (w : World) (r : http.Request)
    (hread : r.BodyErr = none) (hvalid : json.Valid r.Body = true)
    (hshape : json.decodeValue r.Body = .null ∨
      ∃ ms, json.decodeValue r.Body = .object ms ∧ json.hasRangeErrorMembers ms = false)
    (hurl : w.parseURLError (gateway.orderServiceURL w ++ "/orders") = none) :
    sentRequests (gateway.handleCreateOrder w r) = [gateway.newRequest w r.ctx r.Body] ∧
    (gateway.newRequest w r.ctx r.Body).Method = "POST" ∧
    (gateway.newRequest w r.ctx r.Body).Body = r.Body ∧
    (gateway.newRequest w r.ctx r.Body).BodyErr = none ∧
    (gateway.newRequest w r.ctx r.Body).URL
      = (if w.getenv "ORDER_SERVICE_URL" = "" then "http://localhost:8081"
         else w.getenv "ORDER_SERVICE_URL") ++ "/orders" ∧
    (gateway.newRequest w r.ctx r.Body).Header.Get "Content-Type" = "application/json" ∧
    (gateway.newRequest w r.ctx r.Body).ctx = r.ctx ∧
    (gateway.wireRequests w (gateway.newRequest w r.ctx r.Body)).head?
      = some (otelhttp.NewTransport w (gateway.newRequest w r.ctx r.Body)) ∧
    (otelhttp.NewTransport w (gateway.newRequest w r.ctx r.Body)).Method = "POST" ∧
    (otelhttp.NewTransport w (gateway.newRequest w r.ctx r.Body)).Body = r.Body ∧
    (otelhttp.NewTransport w (gateway.newRequest w r.ctx r.Body)).URL
      = (gateway.newRequest w r.ctx r.Body).URL ∧
    (∀ e, w.roundTrip (otelhttp.NewTransport w (gateway.newRequest w r.ctx r.Body)) = .error e →
      gateway.wireRequests w (gateway.newRequest w r.ctx r.Body)
        = [otelhttp.NewTransport w (gateway.newRequest w r.ctx r.Body)]) ∧
    (∀ resp, w.roundTrip (otelhttp.NewTransport w (gateway.newRequest w r.ctx r.Body)) = .ok resp →
      (resp.StatusCode ≠ 301 ∧ resp.StatusCode ≠ 302 ∧ resp.StatusCode ≠ 303 ∧
          resp.StatusCode ≠ 307 ∧ resp.StatusCode ≠ 308) ∨
        resp.Header.Get "Location" = "" →
      gateway.wireRequests w (gateway.newRequest w r.ctx r.Body)
        = [otelhttp.NewTransport w (gateway.newRequest w r.ctx r.Body)]) ∧
    (∀ resp url,
      w.roundTrip (otelhttp.NewTransport w (gateway.newRequest w r.ctx r.Body)) = .ok resp →
      resp.StatusCode = 301 ∨ resp.StatusCode = 302 ∨ resp.StatusCode = 303 →
      resp.Header.Get "Location" ≠ "" →
      w.resolveReference (gateway.newRequest w r.ctx r.Body).URL (resp.Header.Get "Location")
        = .ok url →
      (gateway.wireRequests w (gateway.newRequest w r.ctx r.Body)).tail.head?
        = some (otelhttp.NewTransport w
            (gateway.nextRequest w (gateway.newRequest w r.ctx r.Body)
              (gateway.newRequest w r.ctx r.Body) "GET" false url))) ∧
    (∀ resp url,
      w.roundTrip (otelhttp.NewTransport w (gateway.newRequest w r.ctx r.Body)) = .ok resp →
      resp.StatusCode = 307 ∨ resp.StatusCode = 308 →
      resp.Header.Get "Location" ≠ "" →
      w.resolveReference (gateway.newRequest w r.ctx r.Body).URL (resp.Header.Get "Location")
        = .ok url →
      (gateway.wireRequests w (gateway.newRequest w r.ctx r.Body)).tail.head?
        = some (otelhttp.NewTransport w
            (gateway.nextRequest w (gateway.newRequest w r.ctx r.Body)
              (gateway.newRequest w r.ctx r.Body) "POST" true url))) ∧
    (∀ r2 : http.Request,
      sentRequests (gateway.handleCreateOrder w r2) = [] ∨
      sentRequests (gateway.handleCreateOrder w r2) = [gateway.newRequest w r2.ctx r2.Body]) := by
  obtain ⟨order, hok⟩ := Unmarshal_of_object_or_null r.Body hvalid hshape
  refine ⟨?_, rfl, rfl, rfl, rfl, ?_, rfl, ?_, rfl, rfl, rfl, ?_, ?_, ?_, ?_,
    fun r2 => sentRequests_handleCreateOrder w r2⟩
  · rw [handleCreateOrder_of_ok w r order hread hok hurl]
    simp [sentRequests_append, sentRequests, sentRequests_relay]
  · show http.Header.Get (http.Header.Set [] "Content-Type" "application/json") "Content-Type"
      = "application/json"
    decide!
  · exact clientDo_head w _ 9 _ true
  · intro e hrt
    exact (clientDo_of_error w _ e hrt).2
  · intro resp hrt hfinal
    refine (clientDo_of_final w _ resp hrt ?_).2
    rcases hfinal with h | h
    · exact Or.inl (redirectBehavior_post_none resp.StatusCode h)
    · exact Or.inr h
  · intro resp url hrt hs hloc hu
    have hb := redirectBehavior_post_get resp.StatusCode hs
    have h := wireRequests_of_redirect w (gateway.newRequest w r.ctx r.Body) resp url hrt
      (by show (http.redirectBehavior "POST" resp.StatusCode).2.1 = true; rw [hb]) hloc hu
    rw [h]
    show some (otelhttp.NewTransport w (gateway.nextRequest w _ _
      (http.redirectBehavior "POST" resp.StatusCode).1
      (http.redirectBehavior "POST" resp.StatusCode).2.2 url)) = _
    rw [hb]
  · intro resp url hrt hs hloc hu
    have hb := redirectBehavior_post_kept resp.StatusCode hs
    have h := wireRequests_of_redirect w (gateway.newRequest w r.ctx r.Body) resp url hrt
      (by show (http.redirectBehavior "POST" resp.StatusCode).2.1 = true; rw [hb]) hloc hu
    rw [h]
    show some (otelhttp.NewTransport w (gateway.nextRequest w _ _
      (http.redirectBehavior "POST" resp.StatusCode).1
      (http.redirectBehavior "POST" resp.StatusCode).2.2 url)) = _
    rw [hb]

/-- C5 (amended) at the order of the specification's scenario: the request
`handleCreateOrder` sends without and with `ORDER_SERVICE_URL`, and the
second request on the wire after a 302. -/
theorem C5_forwarded_request_witness :
    sentRequests (gateway.handleCreateOrder exampleWorld (exampleRequest exampleOrder))
      = [ { ctx := (exampleRequest exampleOrder).ctx, Method := "POST",
            URL := "http://localhost:8081/orders",
            Header := [("Content-Type", "application/json")],
            Body := utf8 exampleOrder, BodyErr := none } ] ∧
    (sentRequests (gateway.handleCreateOrder unreachableWorld (exampleRequest exampleOrder))).map
        (fun q => q.URL)
      = ["http://orders.invalid:1/orders"] ∧
    (gateway.wireRequests redirectWorld
        (gateway.newRequest redirectWorld (exampleRequest exampleOrder).ctx
          (exampleRequest exampleOrder).Body)).tail.head?
      = some (otelhttp.NewTransport redirectWorld
          { ctx := (exampleRequest exampleOrder).ctx, Method := "GET",
            URL := "http://localhost:8081/v2/orders",
            Header := [("Content-Type", "application/json")],
            Body := [], BodyErr := none }) :=
  ⟨(C5_forwarded_request exampleWorld (exampleRequest exampleOrder) rfl (by decide!)
      (Or.inr ⟨[("customer_id", .string "c1"), ("items", .array [.string "sku1"])], rfl, rfl⟩)
      rfl).1,
   congrArg (List.map (fun q => q.URL))
     (C5_forwarded_request unreachableWorld (exampleRequest exampleOrder) rfl (by decide!)
      (Or.inr ⟨[("customer_id", .string "c1"), ("items", .array [.string "sku1"])], rfl, rfl⟩)
      rfl).1,
   (C5_forwarded_request redirectWorld (exampleRequest exampleOrder) rfl (by decide!)
      (Or.inr ⟨[("customer_id", .string "c1"), ("items", .array [.string "sku1"])], rfl, rfl⟩)
      rfl).2.2.2.2.2.2.2.2.2.2.2.2.2.1
      { StatusCode := 302, Header := [("Location", "http://localhost:8081/v2/orders")],
        Body := utf8 "moved", BodyErr := none }
      "http://localhost:8081/v2/orders" rfl (Or.inr (Or.inl rfl)) (by decide!) rfl⟩

/-- C10, refuted as stated: the body `{"items":["sku1"]}` is accepted and has
no `customer_id`, and the body `null` is accepted and has no member at all;
for both the attribute `order.customer` is set to the text `<nil>`, which is
no customer identifier of the payload. -/
theorem C10_counterexample :
    json.Unmarshal (exampleRequest "\x7b\"items\":[\"sku1\"]\x7d").Body
      = .ok [("items", .array [.string "sku1"])] ∧
    attributesBeforeDo
        (gateway.handleCreateOrder exampleWorld (exampleRequest "\x7b\"items\":[\"sku1\"]\x7d"))
      = [("order.customer", .String "<nil>")] ∧
    json.Unmarshal (exampleRequest "null").Body = .ok [] ∧
    attributesBeforeDo (gateway.handleCreateOrder exampleWorld (exampleRequest "null"))
      = [("order.customer", .String "<nil>")] :=
  ⟨rfl, by decide!, rfl, by decide!⟩

/-- C10 (amended): for every body the gateway accepts, the one span
attribute set before the request to the order service is sent is
`order.customer`, and its value is what `%v` prints for
`order["customer_id"]`: the string itself when the member stored last under
`customer_id` is a JSON string, `true` or `false` when it is a boolean, and
the text `<nil>` when the payload has no such member or it is `null`. -/
theorem C10_customer_attribute (w : World) (r : http.Request) (order : json.Map)
    (hread : r.BodyErr = none) (hok : json.Unmarshal r.Body = .ok order) :
    attributesBeforeDo (gateway.handleCreateOrder w r)
      = [("order.customer", .String (fmt.Sprintv w.formatFloat (order.index "customer_id")))] ∧
    (∀ s, order.find "customer_id" = some (.string s) →
      fmt.Sprintv w.formatFloat (order.index "customer_id") = s) ∧
    (∀ b, order.find "customer_id" = some (.bool b) →
      fmt.Sprintv w.formatFloat (order.index "customer_id") = if b then "true" else "false") ∧
    (order.find "customer_id" = none ∨ order.find "customer_id" = some .null →
      fmt.Sprintv w.formatFloat (order.index "customer_id") = "<nil>") := by
  refine ⟨attributesBeforeDo_of_ok w r order hread hok, ?_, ?_, ?_⟩
  · intro s hs
    simp [json.Map.index, hs, fmt.Sprintv, fmt.sprintValue]
  · intro b hb
    simp [json.Map.index, hb, fmt.Sprintv, fmt.sprintValue]
  · intro h
    rcases h with h | h <;> simp [json.Map.index, h, fmt.Sprintv]

/-- C10 (amended) at the order of the specification's scenario: the
attribute is `c1`. -/
theorem C10_customer_attribute_witness :
    attributesBeforeDo (gateway.handleCreateOrder exampleWorld (exampleRequest exampleOrder))
      = [("order.customer", .String "c1")] :=
  (C10_customer_attribute exampleWorld (exampleRequest exampleOrder)
    [("customer_id", .string "c1"), ("items", .array [.string "sku1"])] rfl rfl).1

/-- C7, refuted as stated, at three bodies the claim counts as failing to
decode.  The bodies `nullx` and `{"order_id":"o1"} trailing garbage` are not
JSON, and in `{"order_id":null,"items":null}` the `order_id` is no string
and the `items` no array; `handleCheck` answers each with status 200, after
the delay and with the span attributes set. -/
theorem C7_counterexample :
    json.Valid (exampleRequest "nullx").Body = false ∧
    (http.respond (inventory.handleCheck exampleWorld (exampleRequest "nullx"))).Code = 200 ∧
    sleeps (inventory.handleCheck exampleWorld (exampleRequest "nullx"))
      = [inventory.delay exampleWorld] ∧
    spanAttributes (inventory.handleCheck exampleWorld (exampleRequest "nullx"))
      = [("order.id", .String ""), ("inventory.item_count", .Int 0),
          ("inventory.in_stock", .Bool true)] ∧
    json.Valid (exampleRequest "\x7b\"order_id\":\"o1\"\x7d trailing garbage").Body = false ∧
    (http.respond (inventory.handleCheck exampleWorld
      (exampleRequest "\x7b\"order_id\":\"o1\"\x7d trailing garbage"))).Code = 200 ∧
    (http.respond (inventory.handleCheck exampleWorld
      (exampleRequest "\x7b\"order_id\":\"o1\"\x7d trailing garbage"))).Body
      = utf8 "\x7b\"in_stock\":true,\"message\":\"All items available\",\"order_id\":\"o1\"\x7d\n" ∧
    (http.respond (inventory.handleCheck exampleWorld
      (exampleRequest "\x7b\"order_id\":null,\"items\":null\x7d"))).Code = 200 ∧
    sleeps (inventory.handleCheck exampleWorld
      (exampleRequest "\x7b\"order_id\":null,\"items\":null\x7d"))
      = [inventory.delay exampleWorld] ∧
    spanAttributes (inventory.handleCheck exampleWorld
      (exampleRequest "\x7b\"order_id\":null,\"items\":null\x7d"))
      = [("order.id", .String ""), ("inventory.item_count", .Int 0),
          ("inventory.in_stock", .Bool true)] := by
  refine ⟨?_, ?_, ?_, ?_, ?_, ?_, ?_, ?_, ?_, ?_⟩ <;> decide!

/-- C7 (amended): when the body of a request to `handleCheck` does not start
with a complete JSON value (an empty body among these), or the first JSON
value of the body is neither an object nor `null`, or it is an object with a
member stored in `order_id` that is neither a string nor `null`, or with a
member stored in `items` that is neither an array nor `null` or is an array
with a number outside the float64 range, the response has status 400 and the
body `{"error":"invalid request"}` (followed by the newline `http.Error`
writes); the run is the log line and the call of `http.Error` only: it
sleeps no delay, sets no span attribute and writes no success document. -/
theorem C7_undecodable_rejected (w : World) (r : http.Request)
    (hfail : (∃ e, json.readValue r.Body r.BodyErr = .error e) ∨
      (∃ data, json.readValue r.Body r.BodyErr = .ok data ∧
        inventory.rejects (json.decodeValue data) = true)) :
    (http.respond (inventory.handleCheck w r)).Code = 400 ∧
    (http.respond (inventory.handleCheck w r)).Body
      = utf8 "\x7b\"error\":\"invalid request\"\x7d" ++ [0x0A] ∧
    json.decodeValue (http.respond (inventory.handleCheck w r)).Body
      = .object [("error", .string "invalid request")] ∧
    sleeps (inventory.handleCheck w r) = [] ∧
    spanAttributes (inventory.handleCheck w r) = [] ∧
    withoutLogs (inventory.handleCheck w r)
      = http.Error "\x7b\"error\":\"invalid request\"\x7d" http.StatusBadRequest := by
  obtain ⟨e, he⟩ := (Decode_error_iff r).2 hfail
  rw [handleCheck_of_error w r e he]
  refine ⟨rfl, rfl, ?_, rfl, rfl, rfl⟩
  have hb : (http.respond ([Event.log Level.Error "invalid request body"
      (inventory.loggerArgs r ++ [("error", LogValue.jsonErr e)])]
      ++ http.Error "\x7b\"error\":\"invalid request\"\x7d" http.StatusBadRequest)).Body
      = utf8 "\x7b\"error\":\"invalid request\"\x7d" ++ [0x0A] := rfl
  rw [hb]
  rfl

/-- C7 (amended) at a body that is not JSON from its first byte, an empty
body, an `order_id` that is a number, `items` that is a string, and a body
that is an array. -/
theorem C7_undecodable_rejected_witness :
    json.readValue (exampleRequest "order o1").Body none
      = .error (.SyntaxError "looking for beginning of value") ∧
    (http.respond (inventory.handleCheck exampleWorld (exampleRequest "order o1"))).Code = 400 ∧
    json.readValue (exampleRequest "").Body none = .error .EOF ∧
    (http.respond (inventory.handleCheck exampleWorld (exampleRequest ""))).Code = 400 ∧
    inventory.rejects (json.decodeValue (utf8 "\x7b\"order_id\":7,\"items\":[\"a\"]\x7d")) = true ∧
    (http.respond (inventory.handleCheck exampleWorld
      (exampleRequest "\x7b\"order_id\":7,\"items\":[\"a\"]\x7d"))).Code = 400 ∧
    sleeps (inventory.handleCheck exampleWorld
      (exampleRequest "\x7b\"order_id\":7,\"items\":[\"a\"]\x7d")) = [] ∧
    (http.respond (inventory.handleCheck exampleWorld
      (exampleRequest "\x7b\"order_id\":\"o1\",\"items\":\"a\"\x7d"))).Code = 400 ∧
    (http.respond (inventory.handleCheck exampleWorld (exampleRequest "[\"a\",\"b\"]"))).Code
      = 400 :=
  ⟨rfl,
   (C7_undecodable_rejected exampleWorld (exampleRequest "order o1")
      (Or.inl ⟨_, rfl⟩)).1,
   rfl,
   (C7_undecodable_rejected exampleWorld (exampleRequest "") (Or.inl ⟨_, rfl⟩)).1,
   by decide!,
   (C7_undecodable_rejected exampleWorld
      (exampleRequest "\x7b\"order_id\":7,\"items\":[\"a\"]\x7d")
      (Or.inr ⟨utf8 "\x7b\"order_id\":7,\"items\":[\"a\"]\x7d", rfl, by decide!⟩)).1,
   (C7_undecodable_rejected exampleWorld
      (exampleRequest "\x7b\"order_id\":7,\"items\":[\"a\"]\x7d")
      (Or.inr ⟨utf8 "\x7b\"order_id\":7,\"items\":[\"a\"]\x7d", rfl, by decide!⟩)).2.2.2.1,
   (C7_undecodable_rejected exampleWorld
      (exampleRequest "\x7b\"order_id\":\"o1\",\"items\":\"a\"\x7d")
      (Or.inr ⟨utf8 "\x7b\"order_id\":\"o1\",\"items\":\"a\"\x7d", rfl, by decide!⟩)).1,
   (C7_undecodable_rejected exampleWorld (exampleRequest "[\"a\",\"b\"]")
      (Or.inr ⟨utf8 "[\"a\",\"b\"]", rfl, by decide!⟩)).1⟩

/-- C9: whatever `rand.Intn(150)` draws, the delay `handleCheck` computes is
`50 + rand.Intn(150)` milliseconds, at least 50 ms and at most 200 ms (in
fact below 200 ms), and it is the one delay the handler sleeps. -/
theorem C9_delay_bounds (w : World) :
    inventory.delay w = (50 + inventory.randIntn w 150) * inventory.Millisecond ∧
    50 * inventory.Millisecond ≤ inventory.delay w ∧
    inventory.delay w ≤ 200 * inventory.Millisecond ∧
    inventory.delay w < 200 * inventory.Millisecond ∧
    (∀ r d, d ∈ sleeps (inventory.handleCheck w r) → d = inventory.delay w) := by
  have h : w.rand % 150 < 150 := Nat.mod_lt _ (by decide)
  have hd := delay_eq w
  refine ⟨hd, ?_, ?_, ?_, ?_⟩
  · rw [hd]; unfold inventory.Millisecond; omega
  · rw [hd]; unfold inventory.Millisecond; omega
  · rw [hd]; unfold inventory.Millisecond; omega
  · intro r d hmem
    cases hdec : inventory.Decode r with
    | error e =>
      rw [handleCheck_of_error w r e hdec] at hmem
      cases hmem
    | ok req =>
      rw [handleCheck_of_ok w r req hdec] at hmem
      simpa [sleeps] using hmem

/-- C6: when the body of a request to `handleCheck` decodes into the request
struct, the response has status 200 and content type `application/json`,
and its body is a valid JSON document with exactly three members:
`order_id`, the decoded `order_id` of the request, `in_stock`, which is
`true` whatever the items are, and `message`, which is
`All items available`.  The encoder writes the members in the order of
their keys and ends the body with a newline. -/
theorem C6_check_succeeds (w : World) (r : http.Request) (req : inventory.CheckRequest)
    (hok : inventory.Decode r = .ok req) :
    (http.respond (inventory.handleCheck w r)).Code = 200 ∧
    (http.respond (inventory.handleCheck w r)).sent.Get "Content-Type" = "application/json" ∧
    (http.respond (inventory.handleCheck w r)).Body
      = inventory.encodeResult req.OrderID true "All items available" ∧
    json.Valid (http.respond (inventory.handleCheck w r)).Body = true ∧
    json.decodeValue (http.respond (inventory.handleCheck w r)).Body
      = .object [("in_stock", .bool true), ("message", .string "All items available"),
          ("order_id", .string req.OrderID)] ∧
    spanAttributes (inventory.handleCheck w r)
      = [("order.id", .String req.OrderID), ("inventory.item_count", .Int req.Items.length),
          ("inventory.in_stock", .Bool true)] := by
  have hbody : (http.respond (inventory.handleCheck w r)).Body
      = inventory.encodeResult req.OrderID true "All items available" := by
    rw [handleCheck_of_ok w r req hok]
    rfl
  obtain ⟨hv, hd⟩ := decode_encodeResult req.OrderID
  refine ⟨?_, ?_, hbody, ?_, ?_, ?_⟩
  · rw [handleCheck_of_ok w r req hok]
    rfl
  · rw [handleCheck_of_ok w r req hok]
    show http.Header.Get (http.Header.Set [] "Content-Type" "application/json") "Content-Type"
      = "application/json"
    decide!
  · rw [hbody]
    unfold json.Valid
    rw [hv]
    rfl
  · rw [hbody]
    exact hd
  · rw [handleCheck_of_ok w r req hok]
    rfl

/-- C6 at the request of the specification's scenario: the response holds the
three members of the scenario's document, in the order of their keys. -/
theorem C6_check_succeeds_witness :
    inventory.Decode (exampleRequest "\x7b\"order_id\":\"o1\",\"items\":[\"a\",\"b\"]\x7d")
      = .ok { OrderID := "o1", Items := [.string "a", .string "b"] } ∧
    (http.respond (inventory.handleCheck exampleWorld
      (exampleRequest "\x7b\"order_id\":\"o1\",\"items\":[\"a\",\"b\"]\x7d"))).Code = 200 ∧
    (http.respond (inventory.handleCheck exampleWorld
      (exampleRequest "\x7b\"order_id\":\"o1\",\"items\":[\"a\",\"b\"]\x7d"))).Body
      = utf8 "\x7b\"in_stock\":true,\"message\":\"All items available\",\"order_id\":\"o1\"\x7d\n" ∧
    json.decodeValue (http.respond (inventory.handleCheck exampleWorld
      (exampleRequest "\x7b\"order_id\":\"o1\",\"items\":[\"a\",\"b\"]\x7d"))).Body
      = .object [("in_stock", .bool true), ("message", .string "All items available"),
          ("order_id", .string "o1")] ∧
    json.decodeValue
        (utf8 "\x7b\"order_id\":\"o1\",\"in_stock\":true,\"message\":\"All items available\"\x7d")
      = .object [("order_id", .string "o1"), ("in_stock", .bool true),
          ("message", .string "All items available")] := by
  have h := C6_check_succeeds exampleWorld
    (exampleRequest "\x7b\"order_id\":\"o1\",\"items\":[\"a\",\"b\"]\x7d")
    { OrderID := "o1", Items := [.string "a", .string "b"] } rfl
  exact ⟨rfl, h.1, by decide!, h.2.2.2.2.1, rfl⟩

/-- C8: when a request with a valid `traceparent` header is routed to
`handleCreateOrder` and the gateway forwards it, the gateway's span is in
the trace the header names, the outbound request is issued with the context
of the inbound request, the `traceparent` header the otelhttp transport
injects names the same trace, and the span the receiving service's otelhttp
handler starts, with the same propagator, reports the trace identifier of
the gateway's span. -/
theorem C8_trace_id_propagates (wg wd : World) (raw req : http.Request)
    (hvalid : (propagation.extract raw.Header).IsValid = true)
    (hsent : req ∈ sentRequests (gateway.serveCreateOrder wg raw)) :
    (otelhttp.NewHandler wg raw).ctx.span.traceID = (propagation.extract raw.Header).traceID ∧
    req.ctx = (otelhttp.NewHandler wg raw).ctx ∧
    (propagation.extract (otelhttp.NewTransport wg req).Header).traceID
      = (otelhttp.NewHandler wg raw).ctx.span.traceID ∧
    (otelhttp.NewHandler wd (http.received (otelhttp.NewTransport wg req))).ctx.span.traceID
      = (otelhttp.NewHandler wg raw).ctx.span.traceID ∧
    trace.TraceIDString
        (otelhttp.NewHandler wd (http.received (otelhttp.NewTransport wg req))).ctx.span
      = trace.TraceIDString (otelhttp.NewHandler wg raw).ctx.span := by
  obtain ⟨g1, g2⟩ := gateway_span_of_valid wg raw hvalid
  have hreq : req = gateway.newRequest wg (otelhttp.NewHandler wg raw).ctx
      (otelhttp.NewHandler wg raw).Body := by
    unfold gateway.serveCreateOrder at hsent
    rcases sentRequests_handleCreateOrder wg (otelhttp.NewHandler wg raw) with h | h
    · rw [h] at hsent; cases hsent
    · rw [h] at hsent; simpa using hsent
  have hctx : req.ctx = (otelhttp.NewHandler wg raw).ctx := by rw [hreq]; rfl
  have hlt : req.ctx.span.traceID < 2 ^ 128 := by
    rw [hctx, g1]
    exact extract_traceID_lt raw.Header
  obtain ⟨d1, d2⟩ := downstream_span_of_valid wg wd req (by rw [hctx]; exact g2) hlt
  rw [hctx] at d1 d2
  refine ⟨g1, hctx, d1, d2, ?_⟩
  unfold trace.TraceIDString
  rw [d2]

/-- C8 at a request with the `traceparent` header of the W3C examples: the
span of the downstream service is in the trace
`0af7651916cd43dd8448eb211c80319c`. -/
theorem C8_trace_id_propagates_witness :
    (propagation.extract (tracedRequest exampleOrder).Header).IsValid = true ∧
    sentRequests (gateway.serveCreateOrder exampleWorld (tracedRequest exampleOrder))
      = [gateway.newRequest exampleWorld
          (otelhttp.NewHandler exampleWorld (tracedRequest exampleOrder)).ctx
          (tracedRequest exampleOrder).Body] ∧
    (otelhttp.NewHandler downstreamWorld (http.received (otelhttp.NewTransport exampleWorld
        (gateway.newRequest exampleWorld
          (otelhttp.NewHandler exampleWorld (tracedRequest exampleOrder)).ctx
          (tracedRequest exampleOrder).Body)))).ctx.span.traceID
      = (otelhttp.NewHandler exampleWorld (tracedRequest exampleOrder)).ctx.span.traceID ∧
    trace.TraceIDString
        (otelhttp.NewHandler exampleWorld (tracedRequest exampleOrder)).ctx.span
      = "0af7651916cd43dd8448eb211c80319c" :=
  ⟨by decide!, by decide!,
   (C8_trace_id_propagates exampleWorld downstreamWorld (tracedRequest exampleOrder)
      (gateway.newRequest exampleWorld
        (otelhttp.NewHandler exampleWorld (tracedRequest exampleOrder)).ctx
        (tracedRequest exampleOrder).Body) (by decide!) (by decide!)).2.2.2.1,
   by decide!⟩

/-! ## Further properties of the handlers -/

/-- The health handlers of both services answer with status 200, content type
`application/json` and a fixed body that names the service; they read
nothing of the request or of the tracer. -/
theorem handleHealth_fixed :
    (http.respond gateway.handleHealth).Code = 200 ∧
    (http.respond gateway.handleHealth).sent.Get "Content-Type" = "application/json" ∧
    (http.respond gateway.handleHealth).Body
      = utf8 "\x7b\"status\":\"healthy\",\"service\":\"api-gateway\"\x7d" ∧
    (http.respond inventory.handleHealth).Code = 200 ∧
    (http.respond inventory.handleHealth).sent.Get "Content-Type" = "application/json" ∧
    (http.respond inventory.handleHealth).Body
      = utf8 "\x7b\"status\":\"healthy\",\"service\":\"inventory-service\"\x7d" := by
  refine ⟨?_, ?_, ?_, ?_, ?_, ?_⟩ <;> decide!

/-- When reading the request body fails, `handleCreateOrder` answers with
status 400 and `{"error":"failed to read request"}` and sends nothing to the
order service. -/
theorem handleCreateOrder_read_failure (w : World) (r : http.Request) (e : String)
    (hread : r.BodyErr = some e) :
    (http.respond (gateway.handleCreateOrder w r)).Code = 400 ∧
    (http.respond (gateway.handleCreateOrder w r)).Body
      = utf8 "\x7b\"error\":\"failed to read request\"\x7d" ++ [0x0A] ∧
    sentRequests (gateway.handleCreateOrder w r) = [] := by
  have hrun : gateway.handleCreateOrder w r =
      [.log .Error "failed to read request body" (gateway.loggerArgs r ++ [("error", .err e)])]
        ++ http.Error "\x7b\"error\":\"failed to read request\"\x7d" http.StatusBadRequest := by
    simp [gateway.handleCreateOrder, hread]
  rw [hrun]
  exact ⟨rfl, rfl, rfl⟩

/-- The read failure at a request whose body breaks off. -/
theorem handleCreateOrder_read_failure_witness :
    (http.respond (gateway.handleCreateOrder exampleWorld
      { exampleRequest "\x7b\"customer_id\"" with BodyErr := some "unexpected EOF" })).Code
      = 400 :=
  (handleCreateOrder_read_failure exampleWorld
    { exampleRequest "\x7b\"customer_id\"" with BodyErr := some "unexpected EOF" }
    "unexpected EOF" rfl).1

/-- When the URL of the order service does not parse, `handleCreateOrder`
answers an accepted body with status 500 and `{"error":"internal error"}`
and sends nothing to the order service. -/
theorem handleCreateOrder_bad_url (w : World) (r : http.Request) (order : json.Map)
    (e : String)
    (hread : r.BodyErr = none) (hok : json.Unmarshal r.Body = .ok order)
    (hurl : w.parseURLError (gateway.orderServiceURL w ++ "/orders") = some e) :
    (http.respond (gateway.handleCreateOrder w r)).Code = 500 ∧
    (http.respond (gateway.handleCreateOrder w r)).Body
      = utf8 "\x7b\"error\":\"internal error\"\x7d" ++ [0x0A] ∧
    sentRequests (gateway.handleCreateOrder w r) = [] := by
  have hrun : gateway.handleCreateOrder w r =
      [ .log .Info "received order request" (gateway.loggerArgs r ++ [("order", .map order)]),
        .SetAttributes
          [("order.customer", .String (fmt.Sprintv w.formatFloat (order.index "customer_id")))],
        .log .Error "failed to create request" (gateway.loggerArgs r ++ [("error", .err e)]) ]
        ++ http.Error "\x7b\"error\":\"internal error\"\x7d" http.StatusInternalServerError
        ++ [.CloseRequestBody] := by
    simp [gateway.handleCreateOrder, hread, hok, hurl]
  rw [hrun]
  exact ⟨rfl, rfl, rfl⟩

/-- The URL failure in a world whose `ORDER_SERVICE_URL` holds a space. -/
theorem handleCreateOrder_bad_url_witness :
    (http.respond (gateway.handleCreateOrder
      { exampleWorld with
        getenv := fun _ => "http://orders internal",
        parseURLError := fun _ => some "invalid character \" \" in host name" }
      (exampleRequest exampleOrder))).Code = 500 :=
  (handleCreateOrder_bad_url
    { exampleWorld with
      getenv := fun _ => "http://orders internal",
      parseURLError := fun _ => some "invalid character \" \" in host name" }
    (exampleRequest exampleOrder)
    [("customer_id", .string "c1"), ("items", .array [.string "sku1"])]
    "invalid character \" \" in host name" rfl rfl rfl).1
